import Mathlib

/-!
Verification of the natural-language specification of the `shotcut` Python
client library (`src/shotcut/api.py`, `exceptions.py`, `models.py`,
`utils.py`) against a shallow embedding of its code.

Python values are embedded as the inductive `PyVal`; Python dicts as
insertion-ordered association lists with unique keys; Python exceptions as
the inductive `PyError`; fallible code returns `Except PyError _`.
-/

/-- Embedding of the Python values the library manipulates.
`none` is Python `None`; `dict` is an insertion-ordered association list;
`datetime` is a `datetime.datetime` value (year, month, day, hour, minute,
second); `obj` is a constructed dataclass instance (class name plus the
keyword arguments it was built from). -/
inductive PyVal where
  | none
  | bool (b : Bool)
  | int (n : Int)
  | str (s : String)
  | list (xs : List PyVal)
  | dict (kvs : List (String × PyVal))
  | datetime (y m d h mi s : Nat)
  | obj (cls : String) (fields : List (String × PyVal))

/-- A Python dict with string keys: insertion-ordered association list. -/
abbrev PyDict := List (String × PyVal)

/-- Python `d.keys()` in order. -/
def dictKeys (d : PyDict) : List String := d.map (·.1)

/-- Python `d.get(k)` / `d[k]`: value at the first occurrence of key `k`. -/
def dictGet (d : PyDict) (k : String) : Option PyVal :=
  match d with
  | [] => Option.none
  | (k₁, v₁) :: rest => if k₁ = k then some v₁ else dictGet rest k

/-- Python `d.get(k, dflt)`. -/
def dictGetD (d : PyDict) (k : String) (dflt : PyVal) : PyVal :=
  (dictGet d k).getD dflt

/-- Python `d[k] = v`: replace the value at an existing key in place (its position
is preserved), otherwise append the new entry at the end. -/
def dictInsert (d : PyDict) (k : String) (v : PyVal) : PyDict :=
  match d with
  | [] => [(k, v)]
  | (k₁, v₁) :: rest => if k₁ = k then (k, v) :: rest else (k₁, v₁) :: dictInsert rest k v

/-- Python truthiness (`bool(v)`) for the embedded values. -/
def pyTruthy (v : PyVal) : Bool :=
  match v with
  | PyVal.none => false
  | PyVal.bool b => b
  | PyVal.int n => n != 0
  | PyVal.str s => s != ""
  | PyVal.list xs => !xs.isEmpty
  | PyVal.dict kvs => !kvs.isEmpty
  | PyVal.datetime _ _ _ _ _ _ => true
  | PyVal.obj _ _ => true

/-- Python `v != 0` for the embedded values: booleans compare numerically
(`False == 0`, `True == 1`), and values of non-numeric type are never
equal to `0`. -/
def pyNeZero (v : PyVal) : Bool :=
  match v with
  | PyVal.int n => n != 0
  | PyVal.bool b => b
  | _ => true

/-- Python `v is None` / `v is not None`: the identity test used by `clean_params`. -/
def pyIsNone (v : PyVal) : Bool :=
  match v with
  | PyVal.none => true
  | _ => false

/-- The whitespace characters stripped by Python `str.strip()` and matched
by the `re` class `\s` (restricted to the ASCII range; the library only
handles ASCII header and parameter strings). -/
def isWsChar (c : Char) : Bool :=
  c == ' ' || c == '\t' || c == '\n' || c == '\r' || c == '\x0b' || c == '\x0c'

/-- Numeric value of an ASCII digit character. -/
def digitVal (c : Char) : Nat := c.toNat - '0'.toNat

/-- Python `str.strip()`: drop leading and trailing whitespace. -/
def pyStrip (l : List Char) : List Char :=
  ((l.dropWhile isWsChar).reverse.dropWhile isWsChar).reverse

/-- Tail of Python's integer-literal grammar after the first digit:
digits optionally separated by single underscores (PEP 515), no trailing
or doubled underscore. -/
def digitsUAux : List Char → Bool
  | [] => true
  | c :: cs =>
    if c = '_' then
      match cs with
      | [] => false
      | c₁ :: cs₁ => c₁.isDigit && digitsUAux cs₁
    else c.isDigit && digitsUAux cs

/-- Python's unsigned integer-literal body as accepted by `int(str)`:
nonempty, starts with a digit, digits separated by single underscores. -/
def digitsU : List Char → Bool
  | [] => false
  | c :: cs => c.isDigit && digitsUAux cs

/-- Numeric value of an accepted digit string (underscores ignored). -/
def digitsUVal (l : List Char) : Nat :=
  (l.filter (fun c => c != '_')).foldl (fun a c => 10 * a + digitVal c) 0

/-- Model of the builtin `int(str)` applied to an already-stripped string:
an optional sign followed by `digitsU`.  (The builtin also accepts
non-ASCII unicode digits, which the library never receives.) -/
def pyIntCore (l : List Char) : Option Int :=
  match l with
  | [] => Option.none
  | c :: rest =>
    if c = '+' then (if digitsU rest then some (digitsUVal rest : Int) else Option.none)
    else if c = '-' then (if digitsU rest then some (-(digitsUVal rest : Int)) else Option.none)
    else (if digitsU (c :: rest) then some (digitsUVal (c :: rest) : Int) else Option.none)

/-- Model of the builtin `int(str)`: surrounding whitespace is tolerated,
then an optional sign and a digit string; any other shape raises
`ValueError`. -/
def pyIntOfString (s : String) : Option Int := pyIntCore (pyStrip s.data)

/-- Python `s.split(sep)` for a one-character separator: splitting the
empty string yields `[""]`, adjacent separators yield empty pieces. -/
def splitChar (sep : Char) : List Char → List (List Char)
  | [] => [[]]
  | c :: cs =>
    if c = sep then [] :: splitChar sep cs
    else
      match splitChar sep cs with
      | [] => [[c]]
      | h :: t => (c :: h) :: t

/-- Rebuilding the input from its pieces. -/
def joinWith (sep : Char) : List (List Char) → List Char
  | [] => []
  | [x] => x
  | x :: xs => x ++ sep :: joinWith sep xs

/-- Gregorian leap-year rule (as used by `datetime`). -/
def isLeap (y : Nat) : Bool := (y % 4 == 0 && y % 100 != 0) || y % 400 == 0

/-- Number of days in a month (as used by `datetime`). -/
def daysInMonth (y m : Nat) : Nat :=
  if m = 2 then (if isLeap y then 29 else 28)
  else if m = 4 || m = 6 || m = 9 || m = 11 then 30
  else 31

/-- The validity check performed by the `datetime.datetime` constructor on
the fields produced by `strptime` with format `%Y-%m-%d %H:%M:%S` (the
regex below already bounds month/day/hour/minute; the constructor
additionally requires `year >= 1`, a day valid for the month, and rejects
the leap seconds 60 and 61 that the `%S` regex admits). -/
def datetimeValid (y m d h mi s : Nat) : Bool :=
  decide (1 ≤ y) && decide (y ≤ 9999) && decide (1 ≤ m) && decide (m ≤ 12) &&
  decide (1 ≤ d) && decide (d ≤ daysInMonth y m) &&
  decide (h ≤ 23) && decide (mi ≤ 59) && decide (s ≤ 59)

/-!
Model of CPython `_strptime` for the fixed format `"%Y-%m-%d %H:%M:%S"`.
The compiled regex is
`(?P<Y>\d\d\d\d)\-(?P<m>1[0-2]|0[1-9]|[1-9])\-(?P<d>3[01]|[1-2]\d|0[1-9]|[1-9])\s+(?P<H>2[0-3]|[0-1]\d|\d):(?P<M>[0-5]\d|\d):(?P<S>6[0-1]|[0-5]\d|\d)`
(whitespace in the format becomes `\s+`); the match must consume the whole
string, after which the `datetime` constructor validates the fields.
Each component's two-character alternatives are tried before the
one-character ones; this ordered choice is modelled by `||` with the whole
continuation inside each branch, which is exact backtracking for this
linear pattern.
-/

/-- One regex component: try the two-digit alternatives (value test `ok2`)
first, then the one-digit alternatives (value test `ok1`), each followed by
the continuation `k`. -/
def parseTwoThen {α : Type} (ok2 ok1 : Nat → Bool) (cs : List Char) (k : Nat → List Char → Option α) : Option α :=
  (match cs with
   | c₁ :: c₂ :: rest =>
     if c₁.isDigit && c₂.isDigit && ok2 (10 * digitVal c₁ + digitVal c₂) then
       k (10 * digitVal c₁ + digitVal c₂) rest
     else Option.none
   | _ => Option.none)
  <|>
  (match cs with
   | c₁ :: rest => if c₁.isDigit && ok1 (digitVal c₁) then k (digitVal c₁) rest else Option.none
   | _ => Option.none)

/-- A literal character in the regex. -/
def expectChar {α : Type} (c : Char) (cs : List Char) (k : List Char → Option α) : Option α :=
  match cs with
  | c₁ :: rest => if c₁ = c then k rest else Option.none
  | [] => Option.none

/-- Regex `\s+`: at least one whitespace character, matched greedily (the
following component starts with a digit, so greediness is exact). -/
def parseWsPlus {α : Type} (cs : List Char) (k : List Char → Option α) : Option α :=
  match cs with
  | c :: rest => if isWsChar c then k (rest.dropWhile isWsChar) else Option.none
  | [] => Option.none

/-- Regex `(?P<Y>\d\d\d\d)`: exactly four digits. -/
def parse4Digits {α : Type} (cs : List Char) (k : Nat → List Char → Option α) : Option α :=
  match cs with
  | a :: b :: c :: d :: rest =>
    if a.isDigit && b.isDigit && c.isDigit && d.isDigit then
      k (digitVal a * 1000 + digitVal b * 100 + digitVal c * 10 + digitVal d) rest
    else Option.none
  | _ => Option.none

/-!
Model of `datetime.strptime(s, "%Y-%m-%d %H:%M:%S")`: a chain of
stage functions, one per remaining regex component; each stage's
continuation is the next stage.  The two-digit languages are `01`-`12`
for `%m`, `01`-`31` for `%d`, `00`-`23` for `%H`, `00`-`59` for `%M` and
`00`-`61` for `%S`; the one-digit languages are `1`-`9` for `%m` and `%d`
and `0`-`9` for the time components.  The whole string must be consumed
and the fields must pass the `datetime` constructor (`datetimeValid`).
-/

/-- Component `%S`, then end of input and the `datetime` constructor. -/
def stageSec (y m d h mi : Nat) (cs : List Char) :
    Option (Nat × Nat × Nat × Nat × Nat × Nat) :=
  parseTwoThen (fun v => decide (v ≤ 61)) (fun _ => true) cs (fun sec r =>
    if r.isEmpty && datetimeValid y m d h mi sec then some (y, m, d, h, mi, sec)
    else Option.none)

/-- The literal `:` before `%S`. -/
def stageColonSec (y m d h mi : Nat) (cs : List Char) :
    Option (Nat × Nat × Nat × Nat × Nat × Nat) :=
  expectChar ':' cs (stageSec y m d h mi)

/-- Component `%M`. -/
def stageMin (y m d h : Nat) (cs : List Char) :
    Option (Nat × Nat × Nat × Nat × Nat × Nat) :=
  parseTwoThen (fun v => decide (v ≤ 59)) (fun _ => true) cs (stageColonSec y m d h)

/-- The literal `:` before `%M`. -/
def stageColonMin (y m d h : Nat) (cs : List Char) :
    Option (Nat × Nat × Nat × Nat × Nat × Nat) :=
  expectChar ':' cs (stageMin y m d h)

/-- Component `%H`. -/
def stageHour (y m d : Nat) (cs : List Char) :
    Option (Nat × Nat × Nat × Nat × Nat × Nat) :=
  parseTwoThen (fun v => decide (v ≤ 23)) (fun _ => true) cs (stageColonMin y m d)

/-- Whitespace `\s+` between `%d` and `%H`. -/
def stageWs (y m d : Nat) (cs : List Char) :
    Option (Nat × Nat × Nat × Nat × Nat × Nat) :=
  parseWsPlus cs (stageHour y m d)

/-- Component `%d`. -/
def stageDay (y m : Nat) (cs : List Char) :
    Option (Nat × Nat × Nat × Nat × Nat × Nat) :=
  parseTwoThen (fun v => decide (1 ≤ v) && decide (v ≤ 31)) (fun v => decide (1 ≤ v))
    cs (stageWs y m)

/-- The literal `-` before `%d`. -/
def stageDashDay (y m : Nat) (cs : List Char) :
    Option (Nat × Nat × Nat × Nat × Nat × Nat) :=
  expectChar '-' cs (stageDay y m)

/-- Component `%m`. -/
def stageMonth (y : Nat) (cs : List Char) :
    Option (Nat × Nat × Nat × Nat × Nat × Nat) :=
  parseTwoThen (fun v => decide (1 ≤ v) && decide (v ≤ 12)) (fun v => decide (1 ≤ v))
    cs (stageDashDay y)

/-- The literal `-` before `%m`. -/
def stageDashMonth (y : Nat) (cs : List Char) :
    Option (Nat × Nat × Nat × Nat × Nat × Nat) :=
  expectChar '-' cs (stageMonth y)

/-- Model of `datetime.strptime(s, "%Y-%m-%d %H:%M:%S")`: the parsed fields, or
`Option.none` when it raises `ValueError`. -/
def strptimeParse (s : String) : Option (Nat × Nat × Nat × Nat × Nat × Nat) :=
  parse4Digits s.data stageDashMonth

/-- True iff `datetime.strptime(s, "%Y-%m-%d %H:%M:%S")` succeeds on `s`. -/
def strptimeAccepts (s : String) : Bool := (strptimeParse s).isSome

/-- Model of `utils.validate_date`: `True` for a falsy input (absent or empty),
otherwise `True` iff `strptime` with the fixed format succeeds
(`ValueError` is caught and becomes `False`). -/
def validate_date (date_str : Option String) : Bool :=
  match date_str with
  | Option.none => true
  | some s => if s = "" then true else strptimeAccepts s

/-- Model of `utils.clean_params`: the dict comprehension
`{k: v for k, v in params.items() if v is not None}` — entries are
inserted one by one, in iteration order, into a fresh dict. -/
def clean_params (params : PyDict) : PyDict :=
  params.foldl (fun acc kv => if pyIsNone kv.2 then acc else dictInsert acc kv.1 kv.2) []

/-- Component test inside `validate_rgb_color`:
`0 <= int(v.strip()) <= 255`, with `ValueError` from `int` caught by the
surrounding handler (yielding `False`). -/
def rgbCompCheck (v : List Char) : Bool :=
  match pyIntCore (pyStrip v) with
  | some n => decide (0 ≤ n) && decide (n ≤ 255)
  | Option.none => false

/-- Model of `utils.validate_rgb_color`: `True` for a falsy input; `False` unless
the string starts with `"rgb("` and ends with `")"`; then the slice
`color[4:-1]` is split on `","`, the piece count must be 3, and every
piece must pass `rgbCompCheck`. -/
def validate_rgb_color (color : Option String) : Bool :=
  match color with
  | Option.none => true
  | some s =>
    if s = "" then true
    else if !(List.isPrefixOf "rgb(".data s.data) || !(List.isSuffixOf ")".data s.data) then false
    else if (splitChar ',' ((s.data.drop 4).dropLast)).length != 3 then false
    else (splitChar ',' ((s.data.drop 4).dropLast)).all rgbCompCheck

/-- Embedding of the Python exceptions that can arise in the library.
`shotcutApiError` is the class `ShotcutAPIError(Exception)` defined at the
top of `api.py` (the only exception `api.py` ever raises).  The next four
constructors are the classes of `exceptions.py` — a distinct hierarchy
rooted at `exceptions.ShotcutAPIError`, carrying message, optional status
code and optional raw response; `api.py` never imports that module.
`valueError`, `typeError`, `attributeError` and `overflowError` are the
builtin exception kinds. -/
inductive PyError where
  | shotcutApiError (msg : PyVal)
  | excApiError (msg : PyVal) (statusCode : Option Int) (response : Option PyVal)
  | rateLimitError (msg : PyVal) (statusCode : Option Int) (response : Option PyVal)
  | authenticationError (msg : PyVal) (statusCode : Option Int) (response : Option PyVal)
  | validationError (msg : PyVal) (statusCode : Option Int) (response : Option PyVal)
  | valueError (msg : String)
  | typeError (msg : String)
  | attributeError (msg : String)
  | overflowError (msg : String)

/-- Is the exception an instance of `exceptions.RateLimitError`? -/
def PyError.isRateLimit (e : PyError) : Bool :=
  match e with
  | PyError.rateLimitError _ _ _ => true
  | _ => false

/-- Is the exception an instance of `exceptions.ValidationError`? -/
def PyError.isValidation (e : PyError) : Bool :=
  match e with
  | PyError.validationError _ _ _ => true
  | _ => false

/-- Is the exception the generic API error the pipeline itself raises
(`api.py`'s `ShotcutAPIError`)? -/
def PyError.isGenericApi (e : PyError) : Bool :=
  match e with
  | PyError.shotcutApiError _ => true
  | _ => false

/-- Is the exception one of the typed taxonomy kinds of the spec: a base
API error (either module's `ShotcutAPIError`), `RateLimitError`,
`AuthenticationError` or `ValidationError`?  Builtin exceptions
(`ValueError`, `TypeError`, ...) are not. -/
def PyError.isTaxonomyKind (e : PyError) : Bool :=
  match e with
  | PyError.shotcutApiError _ => true
  | PyError.excApiError _ _ _ => true
  | PyError.rateLimitError _ _ _ => true
  | PyError.authenticationError _ _ _ => true
  | PyError.validationError _ _ _ => true
  | _ => false

/-- The message carried by an exception, when it is a string. -/
def PyError.message (e : PyError) : Option PyVal :=
  match e with
  | PyError.shotcutApiError m => some m
  | PyError.excApiError m _ _ => some m
  | PyError.rateLimitError m _ _ => some m
  | PyError.authenticationError m _ _ => some m
  | PyError.validationError m _ _ => some m
  | PyError.valueError m => some (PyVal.str m)
  | PyError.typeError m => some (PyVal.str m)
  | PyError.attributeError m => some (PyVal.str m)
  | PyError.overflowError m => some (PyVal.str m)

/-- Two-digit zero-padded decimal rendering (as in `str(datetime)`). -/
def pad2 (n : Nat) : List Char := [Nat.digitChar (n / 10 % 10), Nat.digitChar (n % 10)]

/-- Four-digit zero-padded decimal rendering (as in `str(datetime)`). -/
def pad4 (n : Nat) : List Char :=
  [Nat.digitChar (n / 1000 % 10), Nat.digitChar (n / 100 % 10),
   Nat.digitChar (n / 10 % 10), Nat.digitChar (n % 10)]

/-- Rendering `str(datetime(y, m, d, h, mi, s))`: the fixed form
`YYYY-MM-DD HH:MM:SS` (for a zero-microsecond value). -/
def formatDateTime (y m d h mi s : Nat) : String :=
  String.mk (pad4 y ++ '-' :: pad2 m ++ '-' :: pad2 d ++ ' ' :: pad2 h ++ ':' :: pad2 mi ++ ':' :: pad2 s)

/-- Civil date from a count of days since 1970-01-01 (proleptic Gregorian;
the standard era-based conversion used to model `datetime`). -/
def civilFromDays (z₀ : Int) : Int × Int × Int :=
  let z := z₀ + 719468
  let era := Int.fdiv z 146097
  let doe := (z - era * 146097).toNat
  let yoe := (doe - doe / 1460 + doe / 36524 - doe / 146096) / 365
  let y := (yoe : Int) + era * 400
  let doy := doe - (365 * yoe + yoe / 4 - yoe / 100)
  let mp := (5 * doy + 2) / 153
  let d := doy - (153 * mp + 2) / 5 + 1
  let m : Int := if mp < 10 then (mp : Int) + 3 else (mp : Int) - 9
  (if m ≤ 2 then y + 1 else y, m, (d : Int))

/-- The rendering of `datetime.fromtimestamp(n)` for an in-range Unix
timestamp `n`.  (`fromtimestamp` uses the platform local timezone; the
model renders UTC, matching an environment with UTC local time.) -/
def epochToDateTimeStr (n : Int) : String :=
  let days := Int.fdiv n 86400
  let sod := (Int.fmod n 86400).toNat
  let ymd := civilFromDays days
  formatDateTime ymd.1.toNat ymd.2.1.toNat ymd.2.2.toNat (sod / 3600) (sod % 3600 / 60) (sod % 60)

/-- Model of `datetime.fromtimestamp(n)` rendered with `str`: in-range timestamps
(years 1 to 9999) yield the formatted time; out-of-range timestamps raise
(`OverflowError`, `OSError` or `ValueError` depending on platform and
magnitude — modelled uniformly as `overflowError`; every choice is outside
the error taxonomy). -/
def datetimeFromTimestampStr (n : Int) : Except PyError String :=
  if n < -62135596800 || n > 253402300799 then
    Except.error (PyError.overflowError "timestamp out of range")
  else Except.ok (epochToDateTimeStr n)

/-- Model of `models.convert_datetime`: `None` for a falsy input; a parsed datetime
for a string in the fixed format; `None` for a string that fails to parse
(`ValueError` caught); a truthy non-string input reaches
`datetime.strptime` and raises `TypeError`, which `convert_datetime` does
not catch. -/
def convert_datetime (v : PyVal) : Except PyError PyVal :=
  if !pyTruthy v then Except.ok PyVal.none
  else
    match v with
    | PyVal.str s =>
      Except.ok (match strptimeParse s with
        | some (y, m, d, h, mi, sec) => PyVal.datetime y m d h mi sec
        | Option.none => PyVal.none)
    | _ => Except.error (PyError.typeError "strptime() argument 0 must be str")

/-- The value `convert_datetime` substitutes for a string field: the
parsed date-time value, or `None` when the string is empty or fails to
parse. -/
def pyDatetimeOrNone (s : String) : PyVal :=
  match strptimeParse s with
  | some (y, m, d, h, mi, sec) => PyVal.datetime y m d h mi sec
  | Option.none => PyVal.none

/-- A dataclass of `models.py`, as seen by keyword construction: its class
name, its fields without defaults (required) and its fields with defaults
(optional), in declaration order. -/
structure ModelKind where
  name : String
  required : List String
  optional : List String

def LinkKind : ModelKind :=
  ⟨"Link", ["id", "created_at", "updated_at", "url", "shorturl"],
   ["title", "description", "location", "custom", "password", "expiry", "clicks", "status"]⟩

def CampaignKind : ModelKind :=
  ⟨"Campaign", ["id", "created_at", "updated_at", "name", "slug"],
   ["public", "total_links", "total_clicks"]⟩

def ChannelKind : ModelKind :=
  ⟨"Channel", ["id", "created_at", "updated_at", "name"],
   ["description", "color", "starred", "total_items"]⟩

def DomainKind : ModelKind :=
  ⟨"Domain", ["id", "created_at", "updated_at", "domain", "status"],
   ["redirect_root", "redirect_404", "ssl_status"]⟩

def PixelKind : ModelKind :=
  ⟨"Pixel", ["id", "created_at", "updated_at", "type", "name", "tag"], ["status"]⟩

def QRCodeKind : ModelKind :=
  ⟨"QRCode", ["id", "created_at", "updated_at", "type", "data", "link"],
   ["background", "foreground", "logo"]⟩

def SplashKind : ModelKind :=
  ⟨"Splash", ["id", "created_at", "updated_at", "name", "content"], ["status"]⟩

def AccountStatsKind : ModelKind :=
  ⟨"AccountStats",
   ["total_links", "total_clicks", "total_campaigns", "total_channels",
    "total_domains", "total_pixels", "total_qr_codes"], []⟩

/-- Keyword construction `model_class(**data)` succeeds iff every required
field is among the keys and every key is a declared field. -/
def keysMatch (kind : ModelKind) (keys : List String) : Bool :=
  kind.required.all (fun f => keys.contains f) &&
  keys.all (fun k => (kind.required ++ kind.optional).contains k)

/-- The text of the `TypeError` CPython raises for a keyword-construction
mismatch (exact wording is interpreter-version dependent; the claims only
depend on the prefix `models.py` prepends to it). -/
def typeErrorText (kind : ModelKind) : String :=
  kind.name ++ ".__init__ got unexpected or missing keyword arguments"

/-- The in-place datetime coercion at the top of
`models.create_model_from_response`: for each of `created_at`,
`updated_at`, `expiry` present in the dict, `data[k] = convert_datetime(data[k])`,
performed in that order; a `TypeError` escaping from `convert_datetime`
aborts the sequence, leaving the earlier mutations in place. -/
def mutateDateKey (k : String) (d : PyDict) : Option PyError × PyDict :=
  match dictGet d k with
  | Option.none => (Option.none, d)
  | some v =>
    match convert_datetime v with
    | Except.ok v₁ => (Option.none, dictInsert d k v₁)
    | Except.error e => (some e, d)

def mutateDates (d : PyDict) : Option PyError × PyDict :=
  match mutateDateKey "created_at" d with
  | (some e, d₁) => (some e, d₁)
  | (Option.none, d₁) =>
    match mutateDateKey "updated_at" d₁ with
    | (some e, d₂) => (some e, d₂)
    | (Option.none, d₂) => mutateDateKey "expiry" d₂

/-- Model of `models.create_model_from_response`: returns `None` for a falsy dict;
otherwise coerces the three datetime keys in place, then constructs the
dataclass; a construction `TypeError` is re-raised as
`ValueError("Invalid data for <name>: ...")`.  The second component of the
result is the dict object the caller passed, after the in-place mutation
(also when an exception propagates). -/
def create_model_from_response (kind : ModelKind) (data : PyDict) :
    Except PyError PyVal × PyDict :=
  if data.isEmpty then (Except.ok PyVal.none, data)
  else
    match mutateDates data with
    | (some e, data₁) => (Except.error e, data₁)
    | (Option.none, data₁) =>
      if keysMatch kind (dictKeys data₁) then
        (Except.ok (PyVal.obj kind.name data₁), data₁)
      else
        (Except.error (PyError.valueError
          ("Invalid data for " ++ kind.name ++ ": " ++ typeErrorText kind)), data₁)

/-- Model of `models.PaginatedResponse`: a plain dataclass; every field is supplied
independently by the caller and no `__post_init__` validation exists. -/
structure PaginatedResponse where
  items : List PyVal
  total : Int
  current_page : Int
  total_pages : Int
  has_next : Bool
  has_prev : Bool

/-- ASCII lowercasing of one character. -/
def lowerChar (c : Char) : Char :=
  if c.toNat ≥ 65 && c.toNat ≤ 90 then Char.ofNat (c.toNat + 32) else c

/-- Case-insensitive string equality (ASCII). -/
def strEqCI (a b : String) : Bool := a.data.map lowerChar == b.data.map lowerChar

/-- Case-insensitive header lookup (`requests` exposes response headers as
a `CaseInsensitiveDict`). -/
def headerGet (headers : List (String × String)) (k : String) : Option String :=
  (headers.find? (fun kv => strEqCI kv.1 k)).map (·.2)

/-- An HTTP response as the pipeline sees it: its headers and its body as
decoded by `response.json()` (`Option.none` when the body is not valid
JSON, in which case `response.json()` raises
`requests.exceptions.JSONDecodeError`, a `RequestException`). -/
structure HttpResponse where
  headers : List (String × String)
  json : Option PyVal

/-- The outcome of `requests.request(...)`: a transport-level
`RequestException` with its description, or a response. -/
inductive TransportResult where
  | exn (msg : String)
  | resp (r : HttpResponse)

/-- The body actually transmitted by `_make_request`:
`json=data if data else None` — the mapping is passed through unchanged,
except that a falsy (absent or empty) mapping becomes no body at all.
`clean_params` is never applied. -/
def transmittedJson (data : Option PyDict) : Option PyDict :=
  match data with
  | Option.none => Option.none
  | some d => if d.isEmpty then Option.none else some d

/-- The query parameters actually transmitted by `_make_request`:
`params=params if params else None`. -/
def transmittedParams (params : Option PyDict) : Option PyDict :=
  match params with
  | Option.none => Option.none
  | some d => if d.isEmpty then Option.none else some d

/-- The body dict built by `api.create_domain`: all three entries are
always present, the absent optional arguments as `None`. -/
def createDomainData (domain : String) (redirect_root redirect_404 : Option String) : PyDict :=
  [("domain", PyVal.str domain),
   ("redirectroot", (redirect_root.map PyVal.str).getD PyVal.none),
   ("redirect404", (redirect_404.map PyVal.str).getD PyVal.none)]

/-- The response-processing tail of `api._make_request`, after
`requests.request` returns (or raises).  In source order:
a transport `RequestException` (including a JSON decode failure) is caught
and re-raised as `ShotcutAPIError("Request failed: ...")`; then, if the
`X-RateLimit-Remaining` header equals `"0"`, the `X-RateLimit-Reset`
header (default `0`) is passed through `int` (raising an uncaught
`ValueError` for a non-numeric string) and `datetime.fromtimestamp`
(raising for an out-of-range value), and
`ShotcutAPIError("Rate limit exceeded. Reset at ...")` is raised; then, if
the decoded body's `error` entry is truthy and `!= 0`, `ShotcutAPIError`
is raised with the body's `message` entry (default
`"Unknown API error"`); calling `.get` on a non-dict body raises an
uncaught `AttributeError`; otherwise the decoded body is returned. -/
def processResponse (tr : TransportResult) : Except PyError PyVal :=
  match tr with
  | TransportResult.exn m =>
    Except.error (PyError.shotcutApiError (PyVal.str ("Request failed: " ++ m)))
  | TransportResult.resp r =>
    match r.json with
    | Option.none =>
      Except.error (PyError.shotcutApiError
        (PyVal.str "Request failed: Expecting value: line 1 column 1 (char 0)"))
    | some body =>
      if headerGet r.headers "X-RateLimit-Remaining" == some "0" then
        match headerGet r.headers "X-RateLimit-Reset" with
        | Option.none =>
          Except.error (PyError.shotcutApiError
            (PyVal.str ("Rate limit exceeded. Reset at " ++ epochToDateTimeStr 0)))
        | some resetStr =>
          match pyIntOfString resetStr with
          | Option.none =>
            Except.error (PyError.valueError
              ("invalid literal for int() with base 10: " ++ resetStr))
          | some n =>
            match datetimeFromTimestampStr n with
            | Except.error e => Except.error e
            | Except.ok ts =>
              Except.error (PyError.shotcutApiError
                (PyVal.str ("Rate limit exceeded. Reset at " ++ ts)))
      else
        match body with
        | PyVal.dict kvs =>
          if pyTruthy (dictGetD kvs "error" PyVal.none) && pyNeZero (dictGetD kvs "error" PyVal.none) then
            Except.error (PyError.shotcutApiError (dictGetD kvs "message" (PyVal.str "Unknown API error")))
          else Except.ok body
        | _ =>
          Except.error (PyError.attributeError "object has no attribute get")

/-- The message of the exception a pipeline run raised, if it raised. -/
def pipelineErrMsg (r : Except PyError PyVal) : Option PyVal :=
  match r with
  | Except.error e => PyError.message e
  | Except.ok _ => Option.none

/-- Did the pipeline run raise an `exceptions.RateLimitError`? -/
def pipelineRaisedRateLimit (r : Except PyError PyVal) : Bool :=
  match r with
  | Except.error e => PyError.isRateLimit e
  | Except.ok _ => false

/-- Did the pipeline run raise one of the spec's typed taxonomy kinds? -/
def pipelineRaisedTaxonomyKind (r : Except PyError PyVal) : Bool :=
  match r with
  | Except.error e => PyError.isTaxonomyKind e
  | Except.ok _ => true

/-- Did record construction raise an `exceptions.ValidationError`? -/
def constructionRaisedValidation (r : Except PyError PyVal) : Bool :=
  match r with
  | Except.error e => PyError.isValidation e
  | Except.ok _ => false

/-- The spec's reading of C8's "matches the fixed date-time format
`YYYY-MM-DD HH:MM:SS` exactly": the string is the canonical zero-padded
rendering of a valid date-time. -/
def matchesExactFormat (s : String) : Prop :=
  ∃ y m d h mi sec, datetimeValid y m d h mi sec = true ∧ s = formatDateTime y m d h mi sec

/-- All characters are whitespace. -/
def wsOnly (l : List Char) : Prop := ∀ c ∈ l, isWsChar c = true

/-- Value of a plain digit string. -/
def digitsOnlyVal (l : List Char) : Nat := l.foldl (fun a c => 10 * a + digitVal c) 0

/-- The spec's reading of an RGB component in C7: an integer written as
bare decimal digits, surrounded by optional whitespace, value at most
255. -/
def rgbSpecComp (p : List Char) : Prop :=
  ∃ w₁ core w₂, p = w₁ ++ core ++ w₂ ∧ wsOnly w₁ ∧ wsOnly w₂ ∧
    core ≠ [] ∧ (∀ c ∈ core, c.isDigit = true) ∧ digitsOnlyVal core ≤ 255

/-- The literal shape `rgb(C,C,C)` with three components satisfying
`comp`. -/
def rgbForm (comp : List Char → Prop) (s : String) : Prop :=
  ∃ a b c, s.data = 'r' :: 'g' :: 'b' :: '(' :: (a ++ ',' :: b ++ ',' :: c ++ [')']) ∧
    comp a ∧ comp b ∧ comp c

/-- C7 as stated: the literal form `rgb(R,G,B)` with three comma-separated
integer components in 0..255, whitespace around each tolerated. -/
def rgbSpecForm (s : String) : Prop := rgbForm rgbSpecComp s

/-- An RGB component as the code actually accepts it: whatever `int`
accepts (optional sign, digits with single underscore separators),
stripped of surrounding whitespace, with value in 0..255. -/
def rgbExtComp (p : List Char) : Prop :=
  ∃ w₁ core w₂, p = w₁ ++ core ++ w₂ ∧ wsOnly w₁ ∧ wsOnly w₂ ∧
    ∃ n, pyIntCore core = some n ∧ 0 ≤ n ∧ n ≤ 255

/-- C7 amended: the accepted language of `validate_rgb_color`. -/
def rgbExtForm (s : String) : Prop := rgbForm rgbExtComp s

/-- C1: a response with `X-RateLimit-Remaining: 0` makes the pipeline fail,
with a message carrying the human-readable reset time (epoch 0 both for a
`X-RateLimit-Reset: 0` header and for an absent one) — but the exception
raised is `api.py`'s module-local generic `ShotcutAPIError`, not the
`RateLimitError` kind of `exceptions.py` (which `api.py` never imports),
contradicting the claim and `exceptions.py`'s own documentation. -/
theorem c1_rate_limit_raises_generic_not_ratelimit :
    processResponse (TransportResult.resp
      ⟨[("X-RateLimit-Remaining", "0"), ("X-RateLimit-Reset", "0")], some (PyVal.dict [])⟩) =
      Except.error (PyError.shotcutApiError
        (PyVal.str ("Rate limit exceeded. Reset at " ++ epochToDateTimeStr 0))) ∧
    processResponse (TransportResult.resp
      ⟨[("X-RateLimit-Remaining", "0")], some (PyVal.dict [])⟩) =
      Except.error (PyError.shotcutApiError
        (PyVal.str ("Rate limit exceeded. Reset at " ++ epochToDateTimeStr 0))) ∧
    epochToDateTimeStr 0 = "1970-01-01 00:00:00" ∧
    pipelineRaisedRateLimit (processResponse (TransportResult.resp
      ⟨[("X-RateLimit-Remaining", "0"), ("X-RateLimit-Reset", "0")], some (PyVal.dict [])⟩)) = false :=
  ⟨rfl, rfl, rfl, rfl⟩

/-- C2 counterexample: `create_domain("example.com")` (both optional
arguments absent) transmits a body in which `redirectroot` and
`redirect404` are present with value `None`; the transmitted body is not
the `clean_params` image of the built dict, because `_make_request` never
applies `clean_params`. -/
theorem c2_counterexample_none_entries_transmitted :
    transmittedJson (some (createDomainData "example.com" Option.none Option.none)) =
      some [("domain", PyVal.str "example.com"),
            ("redirectroot", PyVal.none), ("redirect404", PyVal.none)] ∧
    dictGet (createDomainData "example.com" Option.none Option.none) "redirectroot" =
      some PyVal.none ∧
    clean_params (createDomainData "example.com" Option.none Option.none) =
      [("domain", PyVal.str "example.com")] ∧
    transmittedJson (some (createDomainData "example.com" Option.none Option.none)) ≠
      some (clean_params (createDomainData "example.com" Option.none Option.none)) := by
  exact ⟨rfl, rfl, rfl, fun h =>
    absurd (congrArg (fun o => (Option.getD o []).length) h) (by decide)⟩

/-- C2 amended: the pipeline applies no parameter cleaning: a non-empty
body mapping is transmitted unchanged (a falsy mapping becomes no body at
all), and `create_domain` always transmits all three entries, the absent
optional arguments as `None`. -/
theorem c2_amended_no_cleaning_applied :
    (∀ d : PyDict, d.isEmpty = false → transmittedJson (some d) = some d) ∧
    (∀ d : PyDict, d.isEmpty = false → transmittedParams (some d) = some d) ∧
    (∀ dom rr r4, transmittedJson (some (createDomainData dom rr r4)) =
      some (createDomainData dom rr r4)) := by
  refine ⟨fun d h => ?_, fun d h => ?_, fun dom rr r4 => ?_⟩
  · simp [transmittedJson, h]
  · simp [transmittedParams, h]
  · simp [transmittedJson, createDomainData, List.isEmpty]

/-- Witness for `c2_amended_no_cleaning_applied` at a concrete non-empty
dict. -/
theorem c2_amended_witness :
    transmittedJson (some [("x", PyVal.int 1)]) = some [("x", PyVal.int 1)] :=
  c2_amended_no_cleaning_applied.1 [("x", PyVal.int 1)] rfl

/-- C5 counterexample: a response whose body is
`{"error": 1, "message": "bad url"}` but whose headers carry
`X-RateLimit-Remaining: 0` fails with the rate-limit message, not with the
body's `message` field: the rate-limit check runs first. -/
theorem c5_counterexample_rate_limit_precedes_body_error :
    processResponse (TransportResult.resp
      ⟨[("X-RateLimit-Remaining", "0"), ("X-RateLimit-Reset", "0")],
       some (PyVal.dict [("error", PyVal.int 1), ("message", PyVal.str "bad url")])⟩) =
      Except.error (PyError.shotcutApiError
        (PyVal.str ("Rate limit exceeded. Reset at " ++ epochToDateTimeStr 0))) ∧
    pipelineErrMsg (processResponse (TransportResult.resp
      ⟨[("X-RateLimit-Remaining", "0"), ("X-RateLimit-Reset", "0")],
       some (PyVal.dict [("error", PyVal.int 1), ("message", PyVal.str "bad url")])⟩)) ≠
      some (PyVal.str "bad url") := by
  refine ⟨rfl, fun h => ?_⟩
  have h₀ : pipelineErrMsg (processResponse (TransportResult.resp
      ⟨[("X-RateLimit-Remaining", "0"), ("X-RateLimit-Reset", "0")],
       some (PyVal.dict [("error", PyVal.int 1), ("message", PyVal.str "bad url")])⟩)) =
      some (PyVal.str "Rate limit exceeded. Reset at 1970-01-01 00:00:00") := rfl
  rw [h₀] at h
  injection h with h₁
  injection h₁ with h₂
  exact absurd h₂ (by decide)

/-- C9 counterexample: the `PaginatedResponse` dataclass performs no
validation, so a value with `has_next = True` but
`current_page = 2 > 1 = total_pages` is constructible. -/
theorem c9_counterexample_invariant_not_enforced :
    (PaginatedResponse.mk [] 0 2 1 true false).has_next = true ∧
    ¬((PaginatedResponse.mk [] 0 2 1 true false).current_page <
      (PaginatedResponse.mk [] 0 2 1 true false).total_pages) :=
  ⟨rfl, by decide⟩

/-- C9 amended: `has_next` is an independent constructor-supplied field:
values satisfying and values violating `has_next = (current_page <
total_pages)` are both constructible, in every combination. -/
theorem c9_amended_has_next_unconstrained :
    (∃ p : PaginatedResponse, p.has_next = true ∧ p.current_page < p.total_pages) ∧
    (∃ p : PaginatedResponse, p.has_next = true ∧ ¬p.current_page < p.total_pages) ∧
    (∃ p : PaginatedResponse, p.has_next = false ∧ p.current_page < p.total_pages) ∧
    (∃ p : PaginatedResponse, p.has_next = false ∧ ¬p.current_page < p.total_pages) :=
  ⟨⟨PaginatedResponse.mk [] 0 1 2 true false, rfl, by decide⟩,
   ⟨PaginatedResponse.mk [] 0 2 1 true false, rfl, by decide⟩,
   ⟨PaginatedResponse.mk [] 0 1 2 false false, rfl, by decide⟩,
   ⟨PaginatedResponse.mk [] 0 2 1 false false, rfl, by decide⟩⟩

/-- Inserting a fresh key appends the entry at the end. -/
theorem dictInsert_fresh (acc : PyDict) (k : String) (v : PyVal)
    (h : k ∉ dictKeys acc) : dictInsert acc k v = acc ++ [(k, v)] := by
  induction acc with
  | nil => rfl
  | cons kv rest ih =>
    obtain ⟨k₁, v₁⟩ := kv
    simp only [dictKeys, List.map_cons, List.mem_cons] at h
    push_neg at h
    simp only [dictInsert, if_neg (Ne.symm h.1), List.cons_append, List.cons.injEq, true_and]
    exact ih (by simpa [dictKeys] using h.2)

/-- The key sequence `dictKeys` distributes over cons and append. -/
theorem dictKeys_cons (k : String) (v : PyVal) (rest : PyDict) :
    dictKeys ((k, v) :: rest) = k :: dictKeys rest := rfl

theorem dictKeys_append (a b : PyDict) :
    dictKeys (a ++ b) = dictKeys a ++ dictKeys b := by
  simp [dictKeys]

/-- The dict comprehension of `clean_params`, run from any accumulator
whose keys are disjoint from the remaining input (whose keys are unique),
appends exactly the non-`None` entries in order. -/
theorem clean_params_aux (d : PyDict) : ∀ acc : PyDict, (dictKeys d).Nodup →
    (∀ k ∈ dictKeys acc, k ∉ dictKeys d) →
    d.foldl (fun acc kv => if pyIsNone kv.2 then acc else dictInsert acc kv.1 kv.2) acc =
      acc ++ d.filter (fun kv => !pyIsNone kv.2) := by
  induction d with
  | nil => intro acc _ _; simp
  | cons kv rest ih =>
    intro acc hnd hdisj
    obtain ⟨k, v⟩ := kv
    rw [dictKeys_cons] at hnd hdisj
    rw [List.nodup_cons] at hnd
    have hk_acc : k ∉ dictKeys acc := fun hmem => hdisj k hmem (List.mem_cons_self k _)
    have hdisj₁ : ∀ k₁ ∈ dictKeys acc, k₁ ∉ dictKeys rest := fun k₁ h₁ h₂ =>
      hdisj k₁ h₁ (List.mem_cons_of_mem _ h₂)
    rw [List.foldl_cons, List.filter_cons]
    cases hv : pyIsNone v with
    | true =>
      rw [if_pos (show true = true from rfl),
          if_neg (show ¬((!true) = true) by decide)]
      exact ih acc hnd.2 hdisj₁
    | false =>
      rw [if_neg (show ¬(false = true) by decide),
          if_pos (show (!false) = true from rfl)]
      rw [dictInsert_fresh acc k v hk_acc]
      rw [ih (acc ++ [(k, v)]) hnd.2 ?_]
      · simp
      · intro k₁ h₁
        rw [dictKeys_append] at h₁
        rcases List.mem_append.mp h₁ with h₁ | h₁
        · exact hdisj₁ k₁ h₁
        · exact (List.mem_singleton.mp h₁) ▸ hnd.1

/-- C6: on every dict (keys of a Python dict are unique), `clean_params`
returns exactly the entries whose value is not `None`, in order, values
unchanged — in particular falsy values such as `0` are retained, as in
the spec's example. -/
theorem c6_clean_params_filters_none :
    (∀ d : PyDict, (dictKeys d).Nodup →
      clean_params d = d.filter (fun kv => !pyIsNone kv.2)) ∧
    clean_params [("a", PyVal.int 1), ("b", PyVal.none), ("c", PyVal.int 0)] =
      [("a", PyVal.int 1), ("c", PyVal.int 0)] := by
  constructor
  · intro d hnd
    simpa using clean_params_aux d [] hnd (by simp [dictKeys])
  · rfl

/-- Witness for `c6_clean_params_filters_none` at the spec's example
dict. -/
theorem c6_witness :
    clean_params [("a", PyVal.int 1), ("b", PyVal.none), ("c", PyVal.int 0)] =
      List.filter (fun kv => !pyIsNone kv.2)
        [("a", PyVal.int 1), ("b", PyVal.none), ("c", PyVal.int 0)] :=
  c6_clean_params_filters_none.1
    [("a", PyVal.int 1), ("b", PyVal.none), ("c", PyVal.int 0)] (by decide)

/-- C3 counterexample: a rate-limited response whose `X-RateLimit-Reset`
header is the non-numeric string `"abc"` makes the pipeline raise a plain
`ValueError` from `int()` — not one of the typed taxonomy kinds — because
the `except` clause only catches `requests.exceptions.RequestException`. -/
theorem c3_counterexample_nonnumeric_reset :
    processResponse (TransportResult.resp
      ⟨[("X-RateLimit-Remaining", "0"), ("X-RateLimit-Reset", "abc")], some (PyVal.dict [])⟩) =
      Except.error (PyError.valueError "invalid literal for int() with base 10: abc") ∧
    pipelineRaisedTaxonomyKind (processResponse (TransportResult.resp
      ⟨[("X-RateLimit-Remaining", "0"), ("X-RateLimit-Reset", "abc")], some (PyVal.dict [])⟩)) =
      false :=
  ⟨rfl, rfl⟩

/-- C3 amended: every pipeline failure — transport error, decode failure,
rate-limit exhaustion (with a numeric, representable reset header), or a
nonzero body-level error code in a mapping body — surfaces as a typed API
error (in fact always the generic `ShotcutAPIError`); the exception is a
rate-limited response whose `X-RateLimit-Reset` header is present but not
numeric, where an untyped `ValueError` escapes. -/
theorem c3_amended_error_kinds :
    (∀ m, pipelineRaisedTaxonomyKind (processResponse (TransportResult.exn m)) = true) ∧
    (∀ hdrs, pipelineRaisedTaxonomyKind
      (processResponse (TransportResult.resp ⟨hdrs, Option.none⟩)) = true) ∧
    (∀ hdrs kvs,
      (∀ s, headerGet hdrs "X-RateLimit-Reset" = some s →
        ∃ n, pyIntOfString s = some n ∧ -62135596800 ≤ n ∧ n ≤ 253402300799) →
      pipelineRaisedTaxonomyKind
        (processResponse (TransportResult.resp ⟨hdrs, some (PyVal.dict kvs)⟩)) = true) ∧
    (∀ hdrs kvs s, headerGet hdrs "X-RateLimit-Remaining" = some "0" →
      headerGet hdrs "X-RateLimit-Reset" = some s → pyIntOfString s = Option.none →
      ∃ msg, processResponse (TransportResult.resp ⟨hdrs, some (PyVal.dict kvs)⟩) =
        Except.error (PyError.valueError msg)) := by
  refine ⟨fun m => rfl, fun hdrs => rfl, fun hdrs kvs hreset => ?_, fun hdrs kvs s h₀ h₁ h₂ => ?_⟩
  · by_cases hrl : (headerGet hdrs "X-RateLimit-Remaining" == some "0") = true
    · cases hr : headerGet hdrs "X-RateLimit-Reset" with
      | none =>
        simp [processResponse, hrl, hr, pipelineRaisedTaxonomyKind, PyError.isTaxonomyKind]
      | some s =>
        obtain ⟨n, hn, hlo, hhi⟩ := hreset s hr
        have hts : datetimeFromTimestampStr n = Except.ok (epochToDateTimeStr n) := by
          unfold datetimeFromTimestampStr
          rw [if_neg]
          simp only [Bool.or_eq_true, decide_eq_true_eq, not_or]
          omega
        simp [processResponse, hrl, hr, hn, hts, pipelineRaisedTaxonomyKind,
          PyError.isTaxonomyKind]
    · simp only [processResponse]
      rw [if_neg hrl]
      by_cases herr : (pyTruthy (dictGetD kvs "error" PyVal.none) &&
          pyNeZero (dictGetD kvs "error" PyVal.none)) = true
      · rw [if_pos herr]; rfl
      · rw [if_neg herr]; rfl
  · refine ⟨"invalid literal for int() with base 10: " ++ s, ?_⟩
    simp [processResponse, h₀, h₁, h₂]

/-- Witness for `c3_amended_error_kinds` at a rate-limited response with a
numeric reset header. -/
theorem c3_amended_witness :
    pipelineRaisedTaxonomyKind (processResponse (TransportResult.resp
      ⟨[("X-RateLimit-Remaining", "0"), ("X-RateLimit-Reset", "100")],
       some (PyVal.dict [])⟩)) = true :=
  c3_amended_error_kinds.2.2.1 _ [] (by
    intro s h
    rw [show headerGet [("X-RateLimit-Remaining", "0"), ("X-RateLimit-Reset", "100")]
      "X-RateLimit-Reset" = some "100" from rfl] at h
    obtain rfl : "100" = s := Option.some.inj h
    exact ⟨100, rfl, by decide, by decide⟩)

/-- C5 amended: provided the response's `X-RateLimit-Remaining` header is
not `"0"` (the rate-limit check runs first and otherwise preempts the body
check), a mapping body with a present nonzero integer `error` field makes
the pipeline fail with the generic API error carrying the body's `message`
field (default `"Unknown API error"`), and a body whose `error` field is
absent or zero is returned unchanged. -/
theorem c5_amended_body_error_handling :
    ∀ (hdrs : List (String × String)) (kvs : PyDict),
      (headerGet hdrs "X-RateLimit-Remaining" == some "0") = false →
      (∀ n : Int, dictGet kvs "error" = some (PyVal.int n) → n ≠ 0 →
        processResponse (TransportResult.resp ⟨hdrs, some (PyVal.dict kvs)⟩) =
          Except.error (PyError.shotcutApiError
            (dictGetD kvs "message" (PyVal.str "Unknown API error")))) ∧
      ((dictGet kvs "error" = Option.none ∨ dictGet kvs "error" = some (PyVal.int 0)) →
        processResponse (TransportResult.resp ⟨hdrs, some (PyVal.dict kvs)⟩) =
          Except.ok (PyVal.dict kvs)) := by
  intro hdrs kvs hrl
  constructor
  · intro n hget hn
    simp only [processResponse]
    rw [if_neg (by simp [hrl]), if_pos ?_]
    unfold dictGetD
    rw [hget]
    simp [pyTruthy, pyNeZero, hn]
  · intro hcase
    simp only [processResponse]
    rw [if_neg (by simp [hrl]), if_neg ?_]
    rcases hcase with h | h <;> unfold dictGetD <;> rw [h] <;> simp [pyTruthy]

/-- Witness for `c5_amended_body_error_handling` at the spec's example
body `{"error": 1, "message": "bad url"}` with no rate-limit header. -/
theorem c5_amended_witness :
    processResponse (TransportResult.resp
      ⟨[], some (PyVal.dict [("error", PyVal.int 1), ("message", PyVal.str "bad url")])⟩) =
      Except.error (PyError.shotcutApiError
        (dictGetD [("error", PyVal.int 1), ("message", PyVal.str "bad url")]
          "message" (PyVal.str "Unknown API error"))) :=
  (c5_amended_body_error_handling [] [("error", PyVal.int 1), ("message", PyVal.str "bad url")]
    rfl).1 1 rfl (by decide)

/-- Lookup after `dictInsert` finds the inserted value. -/
theorem dictGet_dictInsert_self (d : PyDict) (k : String) (v : PyVal) :
    dictGet (dictInsert d k v) k = some v := by
  induction d with
  | nil => simp [dictInsert, dictGet]
  | cons kv rest ih =>
    obtain ⟨k₁, v₁⟩ := kv
    by_cases h : k₁ = k
    · simp [dictInsert, dictGet, h]
    · simp [dictInsert, dictGet, h, ih]

/-- Insertion with `dictInsert` leaves other keys untouched. -/
theorem dictGet_dictInsert_other (d : PyDict) (k k₀ : String) (v : PyVal)
    (h : k ≠ k₀) : dictGet (dictInsert d k₀ v) k = dictGet d k := by
  induction d with
  | nil => simp [dictInsert, dictGet, Ne.symm h]
  | cons kv rest ih =>
    obtain ⟨k₁, v₁⟩ := kv
    by_cases h₁ : k₁ = k₀
    · simp [dictInsert, dictGet, h₁, Ne.symm h]
    · simp only [dictInsert, if_neg h₁, dictGet]
      by_cases h₂ : k₁ = k
      · simp [h₂]
      · simp [h₂, ih]

/-- Assigning to an existing key preserves the key sequence. -/
theorem dictKeys_dictInsert_of_mem (d : PyDict) (k : String) (v : PyVal)
    (h : k ∈ dictKeys d) : dictKeys (dictInsert d k v) = dictKeys d := by
  induction d with
  | nil => cases h
  | cons kv rest ih =>
    obtain ⟨k₁, v₁⟩ := kv
    by_cases h₁ : k₁ = k
    · simp [dictInsert, h₁, dictKeys]
    · rw [dictKeys_cons] at h
      rcases List.mem_cons.mp h with h | h
      · exact absurd h.symm h₁
      · simp only [dictInsert, if_neg h₁, dictKeys_cons, ih h]

/-- A found key is a member of the key sequence. -/
theorem mem_dictKeys_of_dictGet (d : PyDict) (k : String) (v : PyVal)
    (h : dictGet d k = some v) : k ∈ dictKeys d := by
  induction d with
  | nil => cases h
  | cons kv rest ih =>
    obtain ⟨k₁, v₁⟩ := kv
    by_cases h₁ : k₁ = k
    · rw [dictKeys_cons, h₁]; exact List.mem_cons_self k _
    · rw [dictGet, if_neg h₁] at h
      exact List.mem_cons_of_mem _ (ih h)

/-- On a string, `convert_datetime` never raises: it yields the parsed
date-time or `None`. -/
theorem convert_datetime_str (s : String) :
    convert_datetime (PyVal.str s) = Except.ok (pyDatetimeOrNone s) := by
  unfold convert_datetime
  by_cases h : s = ""
  · subst h
    simp [pyTruthy, pyDatetimeOrNone, strptimeParse, parse4Digits]
  · simp [pyTruthy, h, pyDatetimeOrNone]

/-- Evaluation of one coercion step when the key is absent. -/
theorem mutateDateKey_eq_none (k₀ : String) (d : PyDict)
    (h : dictGet d k₀ = Option.none) : mutateDateKey k₀ d = (Option.none, d) := by
  unfold mutateDateKey
  rw [h]

/-- Evaluation of one coercion step when the key holds a string. -/
theorem mutateDateKey_eq_str (k₀ : String) (d : PyDict) (s : String)
    (h : dictGet d k₀ = some (PyVal.str s)) :
    mutateDateKey k₀ d = (Option.none, dictInsert d k₀ (pyDatetimeOrNone s)) := by
  unfold mutateDateKey
  rw [h]
  show (match convert_datetime (PyVal.str s) with
        | Except.ok v₁ => ((Option.none : Option PyError), dictInsert d k₀ v₁)
        | Except.error e => (some e, d)) =
    (Option.none, dictInsert d k₀ (pyDatetimeOrNone s))
  rw [convert_datetime_str]

/-- One in-place datetime coercion step, when the value at the key (if
any) is a string: it never raises, preserves the key sequence, replaces
the value at the key by the parsed datetime (or `None`), and leaves every
other key unchanged. -/
theorem mutateDateKey_spec (k₀ : String) (d : PyDict)
    (hstr : ∀ v, dictGet d k₀ = some v → ∃ s, v = PyVal.str s) :
    (mutateDateKey k₀ d).1 = Option.none ∧
    dictKeys (mutateDateKey k₀ d).2 = dictKeys d ∧
    (∀ s, dictGet d k₀ = some (PyVal.str s) →
      dictGet (mutateDateKey k₀ d).2 k₀ = some (pyDatetimeOrNone s)) ∧
    (∀ k, k ≠ k₀ → dictGet (mutateDateKey k₀ d).2 k = dictGet d k) := by
  cases hget : dictGet d k₀ with
  | none =>
    rw [mutateDateKey_eq_none k₀ d hget]
    refine ⟨rfl, rfl, fun s hs => ?_, fun k hk => rfl⟩
    exact Option.noConfusion hs
  | some v =>
    obtain ⟨s, rfl⟩ := hstr v hget
    rw [mutateDateKey_eq_str k₀ d s hget]
    refine ⟨rfl,
      dictKeys_dictInsert_of_mem _ _ _ (mem_dictKeys_of_dictGet _ _ _ hget),
      fun s₁ hs₁ => ?_,
      fun k hk => dictGet_dictInsert_other _ _ _ _ hk⟩
    have hss : s = s₁ := by injection (Option.some.inj hs₁)
    rw [← hss]
    exact dictGet_dictInsert_self _ _ _

/-- The full three-key coercion pass of `create_model_from_response`, when
every value at a date key is a string: it never raises, preserves the key
sequence, replaces each present date key's value by the parsed datetime
(or `None`), and leaves all other keys unchanged. -/
theorem mutateDates_spec (d : PyDict)
    (hstr : ∀ k ∈ ["created_at", "updated_at", "expiry"], ∀ v, dictGet d k = some v →
      ∃ s, v = PyVal.str s) :
    (mutateDates d).1 = Option.none ∧
    dictKeys (mutateDates d).2 = dictKeys d ∧
    (∀ k ∈ ["created_at", "updated_at", "expiry"], ∀ s, dictGet d k = some (PyVal.str s) →
      dictGet (mutateDates d).2 k = some (pyDatetimeOrNone s)) ∧
    (∀ k, k ∉ ["created_at", "updated_at", "expiry"] →
      dictGet (mutateDates d).2 k = dictGet d k) := by
  have h₁ := mutateDateKey_spec "created_at" d (hstr _ (by simp))
  rcases hp₁ : mutateDateKey "created_at" d with ⟨e₁, d₁⟩
  rw [hp₁] at h₁
  obtain ⟨he₁, hk₁, hv₁, ho₁⟩ := h₁
  obtain rfl : e₁ = Option.none := he₁
  have hstr₂ : ∀ v, dictGet d₁ "updated_at" = some v → ∃ s, v = PyVal.str s := by
    intro v hv
    rw [ho₁ _ (by decide)] at hv
    exact hstr "updated_at" (by simp) v hv
  have h₂ := mutateDateKey_spec "updated_at" d₁ hstr₂
  rcases hp₂ : mutateDateKey "updated_at" d₁ with ⟨e₂, d₂⟩
  rw [hp₂] at h₂
  obtain ⟨he₂, hk₂, hv₂, ho₂⟩ := h₂
  obtain rfl : e₂ = Option.none := he₂
  have hstr₃ : ∀ v, dictGet d₂ "expiry" = some v → ∃ s, v = PyVal.str s := by
    intro v hv
    rw [ho₂ _ (by decide), ho₁ _ (by decide)] at hv
    exact hstr "expiry" (by simp) v hv
  have h₃ := mutateDateKey_spec "expiry" d₂ hstr₃
  rcases hp₃ : mutateDateKey "expiry" d₂ with ⟨e₃, d₃⟩
  rw [hp₃] at h₃
  obtain ⟨he₃, hk₃, hv₃, ho₃⟩ := h₃
  obtain rfl : e₃ = Option.none := he₃
  have hmd : mutateDates d = (Option.none, d₃) := by
    unfold mutateDates
    rw [hp₁]
    show (match mutateDateKey "updated_at" d₁ with
          | (some e, d₂) => (some e, d₂)
          | (Option.none, d₂) => mutateDateKey "expiry" d₂) = (Option.none, d₃)
    rw [hp₂]
    show mutateDateKey "expiry" d₂ = (Option.none, d₃)
    exact hp₃
  rw [hmd]
  refine ⟨rfl, hk₃.trans (hk₂.trans hk₁), ?_, ?_⟩
  · intro k hk s hs
    rcases (by simpa using hk : k = "created_at" ∨ k = "updated_at" ∨ k = "expiry")
      with rfl | rfl | rfl
    · rw [ho₃ _ (by decide), ho₂ _ (by decide)]
      exact hv₁ s hs
    · rw [ho₃ _ (by decide)]
      exact hv₂ s (by rw [ho₁ _ (by decide)]; exact hs)
    · exact hv₃ s (by rw [ho₂ _ (by decide), ho₁ _ (by decide)]; exact hs)
  · intro k hk
    simp only [List.mem_cons, List.mem_singleton, not_or] at hk
    obtain ⟨hk₁', hk₂', hk₃'⟩ := hk
    rw [ho₃ _ (by simpa using hk₃'), ho₂ _ (by simpa using hk₂'),
        ho₁ _ (by simpa using hk₁')]

/-- For a non-empty dict, the dict returned alongside the result of
`create_model_from_response` is exactly the dict after the coercion pass,
whether or not construction succeeds. -/
theorem create_model_snd (kind : ModelKind) (data : PyDict) (hne : data.isEmpty = false) :
    (create_model_from_response kind data).2 = (mutateDates data).2 := by
  unfold create_model_from_response
  rw [if_neg (by simp [hne])]
  rcases hp : mutateDates data with ⟨e, d₁⟩
  cases e with
  | none =>
    show (if keysMatch kind (dictKeys d₁) = true
        then (Except.ok (PyVal.obj kind.name d₁), d₁)
        else (Except.error (PyError.valueError
          ("Invalid data for " ++ kind.name ++ ": " ++ typeErrorText kind)), d₁)).2 = d₁
    by_cases hkm : keysMatch kind (dictKeys d₁) = true
    · rw [if_pos hkm]
    · rw [if_neg hkm]
  | some e₁ => rfl

/-- C10: for every record kind and every non-empty dict whose date-key
values are strings, the dict the caller passed comes back (as the second
component of the state-passing embedding) with the same key sequence,
with each of `created_at`, `updated_at`, `expiry` that was present
replaced in place by the parsed date-time (or `None` on parse failure),
and every other entry untouched — unconditionally, so in particular also
when record construction fails. -/
theorem c10_mutation_in_place :
    ∀ (kind : ModelKind) (data : PyDict), data.isEmpty = false →
    (∀ k ∈ ["created_at", "updated_at", "expiry"], ∀ v, dictGet data k = some v →
      ∃ s, v = PyVal.str s) →
    dictKeys (create_model_from_response kind data).2 = dictKeys data ∧
    (∀ k ∈ ["created_at", "updated_at", "expiry"], ∀ s, dictGet data k = some (PyVal.str s) →
      dictGet (create_model_from_response kind data).2 k = some (pyDatetimeOrNone s)) ∧
    (∀ k, k ∉ ["created_at", "updated_at", "expiry"] →
      dictGet (create_model_from_response kind data).2 k = dictGet data k) := by
  intro kind data hne hstr
  obtain ⟨hm1, hm2, hm3, hm4⟩ := mutateDates_spec data hstr
  rw [create_model_snd kind data hne]
  exact ⟨hm2, hm3, hm4⟩

/-- Witness for `c10_mutation_in_place`: a dict that fails construction
for `Pixel` still comes back with `created_at` parsed in place. -/
theorem c10_witness :
    dictGet (create_model_from_response PixelKind
      [("created_at", PyVal.str "2024-01-01 00:00:00"), ("bogus", PyVal.int 1)]).2
      "created_at" = some (pyDatetimeOrNone "2024-01-01 00:00:00") :=
  ((c10_mutation_in_place PixelKind
    [("created_at", PyVal.str "2024-01-01 00:00:00"), ("bogus", PyVal.int 1)] rfl
    (by
      intro k hk v hv
      rcases (by simpa using hk : k = "created_at" ∨ k = "updated_at" ∨ k = "expiry")
        with rfl | rfl | rfl
      · rw [show dictGet [("created_at", PyVal.str "2024-01-01 00:00:00"),
          ("bogus", PyVal.int 1)] "created_at" =
          some (PyVal.str "2024-01-01 00:00:00") from rfl] at hv
        exact ⟨_, (Option.some.inj hv).symm⟩
      · rw [show dictGet [("created_at", PyVal.str "2024-01-01 00:00:00"),
          ("bogus", PyVal.int 1)] "updated_at" = Option.none from rfl] at hv
        exact Option.noConfusion hv
      · rw [show dictGet [("created_at", PyVal.str "2024-01-01 00:00:00"),
          ("bogus", PyVal.int 1)] "expiry" = Option.none from rfl] at hv
        exact Option.noConfusion hv)).2.1
    "created_at" (by simp) "2024-01-01 00:00:00" rfl)

/-- C4 counterexample: constructing a `Pixel` from `{"bogus": 1}` fails
with a plain builtin `ValueError` (whose message does include the kind
name), not with the `ValidationError` kind of `exceptions.py`, which
`models.py` never raises. -/
theorem c4_counterexample_value_error_not_validation :
    (create_model_from_response PixelKind [("bogus", PyVal.int 1)]).1 =
      Except.error (PyError.valueError ("Invalid data for Pixel: " ++ typeErrorText PixelKind)) ∧
    constructionRaisedValidation
      (create_model_from_response PixelKind [("bogus", PyVal.int 1)]).1 = false :=
  ⟨rfl, rfl⟩

/-- C4 amended: for every record kind and every non-empty dict (with
string-or-absent date-key values, so the coercion pass itself cannot
raise) whose keys do not match the kind's declared fields, record
construction fails with a plain `ValueError` whose message starts with
`"Invalid data for <kind name>: "`. -/
theorem c4_amended_mismatch_raises_value_error :
    ∀ (kind : ModelKind) (data : PyDict), data.isEmpty = false →
    (∀ k ∈ ["created_at", "updated_at", "expiry"], ∀ v, dictGet data k = some v →
      ∃ s, v = PyVal.str s) →
    keysMatch kind (dictKeys data) = false →
    (create_model_from_response kind data).1 =
      Except.error (PyError.valueError
        ("Invalid data for " ++ kind.name ++ ": " ++ typeErrorText kind)) := by
  intro kind data hne hstr hkm
  obtain ⟨hm1, hm2, _, _⟩ := mutateDates_spec data hstr
  unfold create_model_from_response
  rw [if_neg (by simp [hne])]
  rcases hp : mutateDates data with ⟨e, d₁⟩
  rw [hp] at hm1 hm2
  obtain rfl : e = Option.none := hm1
  have hd : dictKeys d₁ = dictKeys data := hm2
  show (if keysMatch kind (dictKeys d₁) = true
      then (Except.ok (PyVal.obj kind.name d₁), d₁)
      else (Except.error (PyError.valueError
        ("Invalid data for " ++ kind.name ++ ": " ++ typeErrorText kind)), d₁)).1 =
    Except.error (PyError.valueError
      ("Invalid data for " ++ kind.name ++ ": " ++ typeErrorText kind))
  rw [if_neg (by rw [hd, hkm]; exact Bool.false_ne_true)]

/-- Witness for `c4_amended_mismatch_raises_value_error`: a `Domain` dict
missing its required fields. -/
theorem c4_amended_witness :
    (create_model_from_response DomainKind [("id", PyVal.int 1)]).1 =
      Except.error (PyError.valueError
        ("Invalid data for " ++ DomainKind.name ++ ": " ++ typeErrorText DomainKind)) :=
  c4_amended_mismatch_raises_value_error DomainKind [("id", PyVal.int 1)] rfl
    (by
      intro k hk v hv
      rcases (by simpa using hk : k = "created_at" ∨ k = "updated_at" ∨ k = "expiry")
        with rfl | rfl | rfl
      · exact Option.noConfusion
          ((show dictGet [("id", PyVal.int 1)] "created_at" = Option.none from rfl) ▸ hv)
      · exact Option.noConfusion
          ((show dictGet [("id", PyVal.int 1)] "updated_at" = Option.none from rfl) ▸ hv)
      · exact Option.noConfusion
          ((show dictGet [("id", PyVal.int 1)] "expiry" = Option.none from rfl) ▸ hv))
    rfl

/-- The character `Nat.digitChar k` of a digit `k` is an ASCII digit. -/
theorem digitChar_isDigit (k : Nat) (hk : k ≤ 9) : (Nat.digitChar k).isDigit = true := by
  interval_cases k <;> decide

/-- The value `digitVal` inverts `Nat.digitChar` on digits. -/
theorem digitVal_digitChar (k : Nat) (hk : k ≤ 9) : digitVal (Nat.digitChar k) = k := by
  interval_cases k <;> decide

/-- A digit character is not whitespace. -/
theorem digitChar_ne_ws (k : Nat) (hk : k ≤ 9) : isWsChar (Nat.digitChar k) = false := by
  interval_cases k <;> decide

/-- Every month length is at most 31. -/
theorem daysInMonth_le_31 (y m : Nat) : daysInMonth y m ≤ 31 := by
  unfold daysInMonth
  split
  · split <;> omega
  · split <;> omega

/-- The four-digit year component consumes exactly a `pad4` rendering. -/
theorem parse4Digits_pad4 {α : Type} (y : Nat) (hy : y ≤ 9999) :
    ∀ (rest : List Char) (k : Nat → List Char → Option α),
    parse4Digits (pad4 y ++ rest) k = k y rest := by
  intro rest k
  show parse4Digits (Nat.digitChar (y / 1000 % 10) :: Nat.digitChar (y / 100 % 10) ::
    Nat.digitChar (y / 10 % 10) :: Nat.digitChar (y % 10) :: rest) k = k y rest
  simp only [parse4Digits]
  rw [if_pos (by
    rw [digitChar_isDigit _ (by omega), digitChar_isDigit _ (by omega),
        digitChar_isDigit _ (by omega), digitChar_isDigit _ (by omega)]
    rfl)]
  rw [digitVal_digitChar _ (by omega), digitVal_digitChar _ (by omega),
      digitVal_digitChar _ (by omega), digitVal_digitChar _ (by omega)]
  have hval : y / 1000 % 10 * 1000 + y / 100 % 10 * 100 + y / 10 % 10 * 10 + y % 10 = y := by
    omega
  rw [hval]

/-- A two-digit component whose value test passes consumes exactly a
`pad2` rendering and continues; the one-digit fallback is never needed
because the two-digit branch already succeeds whenever the continuation
does. -/
theorem parseTwoThen_pad2 {α : Type} (v : Nat) (hv : v ≤ 99) (ok2 ok1 : Nat → Bool)
    (h2 : ok2 v = true) (rest : List Char) (k : Nat → List Char → Option α) (r : α)
    (hk : k v rest = some r) :
    parseTwoThen ok2 ok1 (pad2 v ++ rest) k = some r := by
  show parseTwoThen ok2 ok1 (Nat.digitChar (v / 10 % 10) :: Nat.digitChar (v % 10) :: rest)
    k = some r
  simp only [parseTwoThen]
  rw [if_pos (by
    rw [digitChar_isDigit _ (by omega), digitChar_isDigit _ (by omega)]
    rw [digitVal_digitChar _ (by omega), digitVal_digitChar _ (by omega)]
    have hval : 10 * (v / 10 % 10) + v % 10 = v := by omega
    rw [hval, h2]
    rfl)]
  rw [digitVal_digitChar _ (by omega), digitVal_digitChar _ (by omega)]
  have hval : 10 * (v / 10 % 10) + v % 10 = v := by omega
  rw [hval, hk]
  rfl

/-- A matching literal character is consumed. -/
theorem expectChar_cons {α : Type} (c : Char) (rest : List Char) (k : List Char → Option α) :
    expectChar c (c :: rest) k = k rest := by
  simp [expectChar]

/-- A single space followed by a digit is consumed exactly by `\s+`. -/
theorem parseWsPlus_space_pad2 {α : Type} (v : Nat) (rest : List Char)
    (k : List Char → Option α) :
    parseWsPlus (' ' :: (pad2 v ++ rest)) k = k (pad2 v ++ rest) := by
  show parseWsPlus (' ' :: (Nat.digitChar (v / 10 % 10) :: Nat.digitChar (v % 10) :: rest)) k =
    k (Nat.digitChar (v / 10 % 10) :: Nat.digitChar (v % 10) :: rest)
  simp only [parseWsPlus]
  rw [if_pos (by decide)]
  rw [List.dropWhile_cons_of_neg (by simp [digitChar_ne_ws _ (by omega : v / 10 % 10 ≤ 9)])]

/-- The canonical rendering always has 19 characters. -/
theorem formatDateTime_length (y m d h mi s : Nat) :
    (formatDateTime y m d h mi s).length = 19 := rfl

/-- The parser accepts every canonical rendering of a valid date-time and
returns its fields. -/
theorem strptimeParse_format (y m d h mi sec : Nat)
    (hv : datetimeValid y m d h mi sec = true) :
    strptimeParse (formatDateTime y m d h mi sec) = some (y, m, d, h, mi, sec) := by
  have hb : (1 ≤ y) ∧ (y ≤ 9999) ∧ (1 ≤ m) ∧ (m ≤ 12) ∧ (1 ≤ d) ∧
      (d ≤ daysInMonth y m) ∧ (h ≤ 23) ∧ (mi ≤ 59) ∧ (sec ≤ 59) := by
    have hv₁ := hv
    unfold datetimeValid at hv₁
    simp only [Bool.and_eq_true, decide_eq_true_eq] at hv₁
    exact ⟨hv₁.1.1.1.1.1.1.1.1, hv₁.1.1.1.1.1.1.1.2, hv₁.1.1.1.1.1.1.2,
      hv₁.1.1.1.1.1.2, hv₁.1.1.1.1.2, hv₁.1.1.1.2, hv₁.1.1.2, hv₁.1.2, hv₁.2⟩
  obtain ⟨h1y, h2y, h1m, h2m, h1d, h2d, hh, hmi, hsec⟩ := hb
  have hd31 : d ≤ 31 := le_trans h2d (daysInMonth_le_31 y m)
  unfold strptimeParse
  rw [show (formatDateTime y m d h mi sec).data =
    pad4 y ++ '-' :: (pad2 m ++ '-' :: (pad2 d ++ ' ' ::
      (pad2 h ++ ':' :: (pad2 mi ++ ':' :: pad2 sec)))) from rfl]
  rw [parse4Digits_pad4 y h2y]
  unfold stageDashMonth
  rw [expectChar_cons]
  unfold stageMonth
  refine parseTwoThen_pad2 m (by omega) _ _ ?_ _ _ _ ?_
  · simp only [Bool.and_eq_true, decide_eq_true_eq]
    exact ⟨h1m, h2m⟩
  unfold stageDashDay
  rw [expectChar_cons]
  unfold stageDay
  refine parseTwoThen_pad2 d (by omega) _ _ ?_ _ _ _ ?_
  · simp only [Bool.and_eq_true, decide_eq_true_eq]
    exact ⟨h1d, hd31⟩
  unfold stageWs
  rw [parseWsPlus_space_pad2]
  unfold stageHour
  refine parseTwoThen_pad2 h (by omega) _ _ ?_ _ _ _ ?_
  · simp only [decide_eq_true_eq]
    exact hh
  unfold stageColonMin
  rw [expectChar_cons]
  unfold stageMin
  refine parseTwoThen_pad2 mi (by omega) _ _ ?_ _ _ _ ?_
  · simp only [decide_eq_true_eq]
    exact hmi
  unfold stageColonSec
  rw [expectChar_cons]
  unfold stageSec
  rw [← List.append_nil (pad2 sec)]
  refine parseTwoThen_pad2 sec (by omega) _ _ ?_ _ _ _ ?_
  · simp only [decide_eq_true_eq]
    omega
  simp [hv]

/-- C8 counterexample: `validate_date` accepts the unpadded string
`"2024-1-15 10:30:00"`, which does not match the fixed format
`YYYY-MM-DD HH:MM:SS` exactly (every exact rendering has 19 characters;
this string has 18). -/
theorem c8_counterexample_unpadded_accepted :
    validate_date (some "2024-1-15 10:30:00") = true ∧
    "2024-1-15 10:30:00" ≠ "" ∧
    ¬matchesExactFormat "2024-1-15 10:30:00" := by
  refine ⟨by decide, by decide, fun hm => ?_⟩
  obtain ⟨y, m, d, h, mi, sec, hv, hs⟩ := hm
  have hl := congrArg String.length hs
  rw [formatDateTime_length y m d h mi sec] at hl
  exact absurd hl (by decide)

/-- C8 amended: `validate_date` is true for an absent or empty input and
for every string matching the fixed format exactly (with valid calendar
values), but acceptance is strictly larger than exact matching: the
underlying `strptime` also accepts unpadded one-digit components and
whitespace runs as the date/time separator, while rejecting shape-correct
but calendar-invalid strings. -/
theorem c8_amended_date_acceptance :
    validate_date Option.none = true ∧
    validate_date (some "") = true ∧
    (∀ y m d h mi sec, datetimeValid y m d h mi sec = true →
      validate_date (some (formatDateTime y m d h mi sec)) = true) ∧
    validate_date (some "2024-1-15 10:30:00") = true ∧
    validate_date (some "2024-01-15  10:30:00") = true ∧
    validate_date (some "2024-01-15") = false ∧
    validate_date (some "2024-02-30 00:00:00") = false := by
  refine ⟨rfl, rfl, fun y m d h mi sec hv => ?_, by decide, by decide, by decide, by decide⟩
  simp only [validate_date]
  rw [if_neg ?_]
  · unfold strptimeAccepts
    rw [strptimeParse_format y m d h mi sec hv]
    rfl
  · intro he
    have hl := congrArg String.length he
    rw [formatDateTime_length] at hl
    exact absurd hl (by decide)

/-- Witness for `c8_amended_date_acceptance` at a concrete valid
date-time. -/
theorem c8_amended_witness :
    validate_date (some (formatDateTime 2024 1 15 10 30 0)) = true :=
  c8_amended_date_acceptance.2.2.1 2024 1 15 10 30 0 (by decide)

/-- Splitting never returns an empty list of pieces. -/
theorem splitChar_ne_nil (sep : Char) (l : List Char) : splitChar sep l ≠ [] := by
  cases l with
  | nil => simp [splitChar]
  | cons c cs =>
    simp only [splitChar]
    by_cases h : c = sep
    · simp [h]
    · rw [if_neg h]
      cases hs : splitChar sep cs <;> simp

/-- Splitting a separator-free list yields one piece. -/
theorem splitChar_no_sep (sep : Char) (l : List Char) (h : sep ∉ l) :
    splitChar sep l = [l] := by
  induction l with
  | nil => rfl
  | cons c cs ih =>
    simp only [List.mem_cons, not_or] at h
    have hcs : ¬(c = sep) := fun hc => h.1 hc.symm
    simp only [splitChar, if_neg hcs]
    rw [ih h.2]

/-- Splitting past a separator-free first piece. -/
theorem splitChar_append_sep (sep : Char) (a rest : List Char) (h : sep ∉ a) :
    splitChar sep (a ++ sep :: rest) = a :: splitChar sep rest := by
  induction a with
  | nil => simp [splitChar]
  | cons c cs ih =>
    simp only [List.mem_cons, not_or] at h
    have hcs : ¬(c = sep) := fun hc => h.1 hc.symm
    simp only [List.cons_append, splitChar, if_neg hcs, List.append_eq] at ih ⊢
    rw [ih h.2]

/-- Joining with `joinWith` is a left inverse of `splitChar`. -/
theorem joinWith_splitChar (sep : Char) (l : List Char) :
    joinWith sep (splitChar sep l) = l := by
  induction l with
  | nil => rfl
  | cons c cs ih =>
    simp only [splitChar]
    by_cases h : c = sep
    · rw [if_pos h]
      cases hs : splitChar sep cs with
      | nil => exact absurd hs (splitChar_ne_nil sep cs)
      | cons p ps =>
        rw [hs] at ih
        show [] ++ sep :: joinWith sep (p :: ps) = c :: cs
        rw [ih, h]
        rfl
    · rw [if_neg h]
      cases hs : splitChar sep cs with
      | nil => exact absurd hs (splitChar_ne_nil sep cs)
      | cons p ps =>
        rw [hs] at ih
        cases ps with
        | nil =>
          show c :: p = c :: cs
          rw [show joinWith sep [p] = p from rfl] at ih
          rw [ih]
        | cons q qs =>
          show (c :: p) ++ sep :: joinWith sep (q :: qs) = c :: cs
          rw [show joinWith sep (p :: q :: qs) = p ++ sep :: joinWith sep (q :: qs) from rfl] at ih
          simp only [List.cons_append, List.cons.injEq, true_and]
          exact ih

/-- No piece returned by `splitChar` contains the separator. -/
theorem splitChar_not_mem (sep : Char) (l : List Char) :
    ∀ p ∈ splitChar sep l, sep ∉ p := by
  induction l with
  | nil =>
    intro p hp
    rw [show splitChar sep [] = [[]] from rfl, List.mem_singleton] at hp
    subst hp
    simp
  | cons c cs ih =>
    intro p hp
    simp only [splitChar] at hp
    by_cases h : c = sep
    · rw [if_pos h, List.mem_cons] at hp
      rcases hp with rfl | hp
      · simp
      · exact ih p hp
    · rw [if_neg h] at hp
      cases hs : splitChar sep cs with
      | nil => exact absurd hs (splitChar_ne_nil sep cs)
      | cons q qs =>
        rw [hs, List.mem_cons] at hp
        rcases hp with rfl | hp
        · intro hmem
          rcases List.mem_cons.mp hmem with hc | hmem₁
          · exact h hc.symm
          · exact ih q (hs ▸ List.mem_cons_self q qs) hmem₁
        · exact ih p (hs ▸ List.mem_cons_of_mem q hp)

/-- A three-piece split reconstructs the input with two separators, and
each piece is separator-free. -/
theorem splitChar_eq_three (sep : Char) (l a b c : List Char)
    (h : splitChar sep l = [a, b, c]) :
    l = a ++ sep :: b ++ sep :: c ∧ sep ∉ a ∧ sep ∉ b ∧ sep ∉ c := by
  refine ⟨?_, ?_, ?_, ?_⟩
  · have hj := joinWith_splitChar sep l
    rw [h] at hj
    rw [← hj]
    simp [joinWith]
  · exact splitChar_not_mem sep l a (h ▸ (by simp))
  · exact splitChar_not_mem sep l b (h ▸ (by simp))
  · exact splitChar_not_mem sep l c (h ▸ (by simp))

/-- An ASCII digit is not whitespace. -/
theorem isDigit_not_ws (c : Char) (h : c.isDigit = true) : isWsChar c = false := by
  by_contra hw
  rw [Bool.not_eq_false] at hw
  unfold isWsChar at hw
  simp only [Bool.or_eq_true, beq_iff_eq] at hw
  rcases hw with ((((rfl | rfl) | rfl) | rfl) | rfl) | rfl <;> exact absurd h (by decide)

/-- Dropping whitespace skips a whitespace-only prefix. -/
theorem dropWhile_append_wsOnly (w l : List Char) (hw : wsOnly w) :
    List.dropWhile isWsChar (w ++ l) = List.dropWhile isWsChar l := by
  induction w with
  | nil => rfl
  | cons c cs ih =>
    rw [List.cons_append, List.dropWhile_cons_of_pos (hw c (List.mem_cons_self c cs))]
    exact ih (fun c₁ h₁ => hw c₁ (List.mem_cons_of_mem c h₁))

/-- Every list splits as whitespace, its strip, whitespace. -/
theorem strip_decomposition (l : List Char) :
    ∃ w₁ w₂, l = w₁ ++ pyStrip l ++ w₂ ∧ wsOnly w₁ ∧ wsOnly w₂ := by
  refine ⟨l.takeWhile isWsChar,
    ((l.dropWhile isWsChar).reverse.takeWhile isWsChar).reverse, ?_, ?_, ?_⟩
  · unfold pyStrip
    conv_lhs => rw [← List.takeWhile_append_dropWhile (p := isWsChar) (l := l)]
    rw [List.append_assoc]
    congr 1
    conv_lhs => rw [← List.reverse_reverse (List.dropWhile isWsChar l)]
    rw [← List.reverse_append]
    congr 1
    rw [List.takeWhile_append_dropWhile]
  · exact fun c hc => List.mem_takeWhile_imp hc
  · intro c hc
    rw [List.mem_reverse] at hc
    exact List.mem_takeWhile_imp hc

/-- Stripping recovers exactly the core of a decomposition whose core is
nonempty and free of whitespace. -/
theorem strip_of_decomposition (w₁ core w₂ : List Char) (hw₁ : wsOnly w₁)
    (hw₂ : wsOnly w₂) (hne : core ≠ []) (hcore : ∀ c ∈ core, isWsChar c = false) :
    pyStrip (w₁ ++ core ++ w₂) = core := by
  obtain ⟨c₀, rest, rfl⟩ := List.exists_cons_of_ne_nil hne
  unfold pyStrip
  rw [List.append_assoc, dropWhile_append_wsOnly _ _ hw₁, List.cons_append,
    List.dropWhile_cons_of_neg (by simp [hcore c₀ (List.mem_cons_self c₀ rest)])]
  rw [show (c₀ :: (rest ++ w₂)).reverse = w₂.reverse ++ (c₀ :: rest).reverse by
    rw [← List.reverse_append, List.cons_append]]
  rw [dropWhile_append_wsOnly _ _ (fun c hc => hw₂ c (List.mem_reverse.mp hc))]
  obtain ⟨cₑ, hce⟩ := List.exists_cons_of_ne_nil
    (show (c₀ :: rest).reverse ≠ [] by simp)
  obtain ⟨restᵣ, hr⟩ := hce
  rw [hr, List.dropWhile_cons_of_neg (by
    have hmem : cₑ ∈ c₀ :: rest := by
      rw [← List.mem_reverse, hr]
      exact List.mem_cons_self cₑ restᵣ
    simp [hcore cₑ hmem])]
  rw [← hr, List.reverse_reverse]

/-- Characters of an accepted digit-string tail are underscores or
digits. -/
theorem digitsUAux_chars : ∀ l : List Char, digitsUAux l = true →
    ∀ c ∈ l, c = '_' ∨ c.isDigit = true := by
  intro l
  induction l with
  | nil => intro _ c hc; cases hc
  | cons c₀ cs ih =>
    intro h c hc
    unfold digitsUAux at h
    by_cases h0 : c₀ = '_'
    · rw [if_pos h0] at h
      cases cs with
      | nil => exact absurd h (by simp)
      | cons c₁ cs₁ =>
        rw [Bool.and_eq_true] at h
        have haux : digitsUAux (c₁ :: cs₁) = true := by
          unfold digitsUAux
          rw [if_neg (show ¬(c₁ = '_') by
            intro he
            rw [he] at h
            exact absurd h.1 (by decide))]
          rw [h.1, h.2]
          rfl
        rcases List.mem_cons.mp hc with rfl | hc₁
        · exact Or.inl h0
        · exact ih haux c hc₁
    · rw [if_neg h0, Bool.and_eq_true] at h
      rcases List.mem_cons.mp hc with rfl | hc₁
      · exact Or.inr h.1
      · exact ih h.2 c hc₁

/-- Characters of an accepted digit string are underscores or digits. -/
theorem digitsU_chars (l : List Char) (h : digitsU l = true) :
    ∀ c ∈ l, c = '_' ∨ c.isDigit = true := by
  cases l with
  | nil => intro c hc; cases hc
  | cons c₀ cs =>
    intro c hc
    rw [show digitsU (c₀ :: cs) = (c₀.isDigit && digitsUAux cs) from rfl,
      Bool.and_eq_true] at h
    rcases List.mem_cons.mp hc with rfl | hc₁
    · exact Or.inr h.1
    · exact digitsUAux_chars cs h.2 c hc₁

/-- Characters of a string accepted by `int` are a sign, an underscore or
a digit. -/
theorem pyIntCore_chars (core : List Char) (n : Int) (h : pyIntCore core = some n) :
    ∀ c ∈ core, c = '+' ∨ c = '-' ∨ c = '_' ∨ c.isDigit = true := by
  cases core with
  | nil => intro c hc; cases hc
  | cons c₀ rest =>
    intro c hc
    simp only [pyIntCore] at h
    by_cases hplus : c₀ = '+'
    · rw [if_pos hplus] at h
      by_cases hd : digitsU rest = true
      · rcases List.mem_cons.mp hc with rfl | hc₁
        · exact Or.inl hplus
        · rcases digitsU_chars rest hd c hc₁ with h₁ | h₁
          · exact Or.inr (Or.inr (Or.inl h₁))
          · exact Or.inr (Or.inr (Or.inr h₁))
      · rw [if_neg (by simpa using hd)] at h
        exact Option.noConfusion h
    · rw [if_neg hplus] at h
      by_cases hminus : c₀ = '-'
      · rw [if_pos hminus] at h
        by_cases hd : digitsU rest = true
        · rcases List.mem_cons.mp hc with rfl | hc₁
          · exact Or.inr (Or.inl hminus)
          · rcases digitsU_chars rest hd c hc₁ with h₁ | h₁
            · exact Or.inr (Or.inr (Or.inl h₁))
            · exact Or.inr (Or.inr (Or.inr h₁))
        · rw [if_neg (by simpa using hd)] at h
          exact Option.noConfusion h
      · rw [if_neg hminus] at h
        by_cases hd : digitsU (c₀ :: rest) = true
        · rcases digitsU_chars (c₀ :: rest) hd c hc with h₁ | h₁
          · exact Or.inr (Or.inr (Or.inl h₁))
          · exact Or.inr (Or.inr (Or.inr h₁))
        · rw [if_neg (by simpa using hd)] at h
          exact Option.noConfusion h

/-- A string accepted by `int` is nonempty. -/
theorem pyIntCore_ne_nil (core : List Char) (n : Int) (h : pyIntCore core = some n) :
    core ≠ [] := by
  intro he
  subst he
  exact Option.noConfusion h

/-- A string accepted by `int` contains no whitespace. -/
theorem pyIntCore_not_ws (core : List Char) (n : Int) (h : pyIntCore core = some n) :
    ∀ c ∈ core, isWsChar c = false := by
  intro c hc
  rcases pyIntCore_chars core n h c hc with rfl | rfl | rfl | hd
  · decide
  · decide
  · decide
  · exact isDigit_not_ws c hd

/-- A string accepted by `int` contains no comma. -/
theorem pyIntCore_no_comma (core : List Char) (n : Int) (h : pyIntCore core = some n) :
    ',' ∉ core := by
  intro hc
  rcases pyIntCore_chars core n h ',' hc with h₁ | h₁ | h₁ | h₁ <;> exact absurd h₁ (by decide)

/-- The component check of `validate_rgb_color` accepts exactly the
components of the amended claim. -/
theorem rgbCompCheck_iff (p : List Char) : rgbCompCheck p = true ↔ rgbExtComp p := by
  constructor
  · intro h
    unfold rgbCompCheck at h
    cases hpi : pyIntCore (pyStrip p) with
    | none =>
      rw [hpi] at h
      exact absurd h (by simp)
    | some n =>
      rw [hpi] at h
      simp only [Bool.and_eq_true, decide_eq_true_eq] at h
      obtain ⟨w₁, w₂, hdec, hw₁, hw₂⟩ := strip_decomposition p
      exact ⟨w₁, pyStrip p, w₂, hdec, hw₁, hw₂, n, hpi, h.1, h.2⟩
  · rintro ⟨w₁, core, w₂, rfl, hw₁, hw₂, n, hpi, h₀, h₂₅₅⟩
    unfold rgbCompCheck
    rw [strip_of_decomposition w₁ core w₂ hw₁ hw₂ (pyIntCore_ne_nil core n hpi)
      (pyIntCore_not_ws core n hpi)]
    rw [hpi]
    simp only [Bool.and_eq_true, decide_eq_true_eq]
    exact ⟨h₀, h₂₅₅⟩

/-- A component of the amended claim contains no comma and no
parenthesis. -/
theorem rgbExtComp_chars (p : List Char) (hp : rgbExtComp p) :
    ∀ c ∈ p, isWsChar c = true ∨ c = '+' ∨ c = '-' ∨ c = '_' ∨ c.isDigit = true := by
  obtain ⟨w₁, core, w₂, rfl, hw₁, hw₂, n, hpi, _, _⟩ := hp
  intro c hc
  rcases List.mem_append.mp hc with hc₁ | hc₂
  · rcases List.mem_append.mp hc₁ with hc₃ | hc₄
    · exact Or.inl (hw₁ c hc₃)
    · exact Or.inr (pyIntCore_chars core n hpi c hc₄)
  · exact Or.inl (hw₂ c hc₂)

/-- Unfolding of `validate_rgb_color` on a present string. -/
theorem validate_rgb_color_some (s : String) :
    validate_rgb_color (some s) =
      (if s = "" then true
       else if !(List.isPrefixOf "rgb(".data s.data) || !(List.isSuffixOf ")".data s.data)
         then false
       else if (splitChar ',' ((s.data.drop 4).dropLast)).length != 3 then false
       else (splitChar ',' ((s.data.drop 4).dropLast)).all rgbCompCheck) := rfl

/-- A string that starts with `rgb(` and ends with `)` is the prefix, a
middle, and the closing parenthesis; the slice `color[4:-1]` is exactly
the middle. -/
theorem prefix_suffix_decomp (l : List Char)
    (hpre : List.isPrefixOf "rgb(".data l = true)
    (hsuf : List.isSuffixOf ")".data l = true) :
    ∃ mid, l = 'r' :: 'g' :: 'b' :: '(' :: (mid ++ [')']) ∧ (l.drop 4).dropLast = mid := by
  obtain ⟨t, ht⟩ := List.isPrefixOf_iff_prefix.mp hpre
  obtain ⟨pre, hpre₂⟩ := List.isSuffixOf_iff_suffix.mp hsuf
  have hlast : l.getLast? = some ')' := by
    rw [← hpre₂]
    exact List.getLast?_concat pre
  cases t with
  | nil =>
    exfalso
    rw [← ht] at hlast
    exact absurd (Option.some.inj hlast) (by decide)
  | cons t₀ ts =>
    have htne : (t₀ :: ts) ≠ [] := by simp
    have h₂ : l.getLast? = (t₀ :: ts).getLast? := by
      rw [← ht]
      exact List.getLast?_append_of_ne_nil _ htne
    have h₅ : (t₀ :: ts).getLast htne = ')' := by
      have h₆ := List.getLast?_eq_getLast (t₀ :: ts) htne
      rw [h₆] at h₂
      exact (Option.some.inj (hlast.symm.trans h₂)).symm
    have h₃ : (t₀ :: ts) = (t₀ :: ts).dropLast ++ [')'] := by
      conv_lhs => rw [← List.dropLast_append_getLast htne]
      rw [h₅]
    refine ⟨(t₀ :: ts).dropLast, ?_, ?_⟩
    · rw [← ht]
      conv_lhs => rw [h₃]
      rfl
    · rw [← ht]
      conv_lhs => rw [h₃]
      have h₇ : (("rgb(".data ++ ((t₀ :: ts).dropLast ++ [')'])).drop 4) =
          (t₀ :: ts).dropLast ++ [')'] := rfl
      rw [h₇, List.dropLast_concat]

/-- A component of the amended form contains no comma. -/
theorem rgbExtComp_no_comma (p : List Char) (hp : rgbExtComp p) : ',' ∉ p := by
  intro hmem
  rcases rgbExtComp_chars p hp ',' hmem with h | h | h | h | h <;> exact absurd h (by decide)

/-- C7 amended: `validate_rgb_color` is true for an absent or empty input,
and for a present string it is true exactly on the literal form
`rgb(C,C,C)` whose three comma-separated components are accepted by the
language's integer parser after stripping whitespace — bare digits, but
also a leading sign or single underscore digit separators — with value in
0..255. -/
theorem c7_amended_rgb_characterization :
    validate_rgb_color Option.none = true ∧
    ∀ s : String, validate_rgb_color (some s) = true ↔ (s = "" ∨ rgbExtForm s) := by
  refine ⟨rfl, fun s => ?_⟩
  constructor
  · intro hv
    by_cases hs : s = ""
    · exact Or.inl hs
    right
    rw [validate_rgb_color_some, if_neg hs] at hv
    by_cases hps : (!(List.isPrefixOf "rgb(".data s.data) ||
        !(List.isSuffixOf ")".data s.data)) = true
    · rw [if_pos hps] at hv
      exact absurd hv (by simp)
    · rw [if_neg hps] at hv
      have hpre₁ : List.isPrefixOf "rgb(".data s.data = true := by
        cases hp : List.isPrefixOf "rgb(".data s.data
        · exact absurd (by rw [hp]; rfl) hps
        · rfl
      have hsuf₁ : List.isSuffixOf ")".data s.data = true := by
        cases hq : List.isSuffixOf ")".data s.data
        · exact absurd (by rw [hq]; simp) hps
        · rfl
      obtain ⟨mid, hmid, hslice⟩ := prefix_suffix_decomp s.data hpre₁ hsuf₁
      rw [hslice] at hv
      by_cases hlen : ((splitChar ',' mid).length != 3) = true
      · rw [if_pos hlen] at hv
        exact absurd hv (by simp)
      · rw [if_neg hlen] at hv
        have hlen3 : (splitChar ',' mid).length = 3 := by simpa using hlen
        obtain ⟨a, b, c, habc⟩ := List.length_eq_three.mp hlen3
        obtain ⟨hmid₂, hna, hnb, hnc⟩ := splitChar_eq_three ',' mid a b c habc
        rw [habc] at hv
        simp only [List.all_cons, List.all_nil, Bool.and_eq_true, Bool.and_true] at hv
        refine ⟨a, b, c, ?_, (rgbCompCheck_iff a).mp hv.1,
          (rgbCompCheck_iff b).mp hv.2.1, (rgbCompCheck_iff c).mp hv.2.2⟩
        rw [hmid, hmid₂]
  · rintro (rfl | ⟨a, b, c, hs, ha, hb, hc⟩)
    · rfl
    · have hsne : ¬(s = "") := by
        intro he
        subst he
        have hlen := congrArg List.length hs
        simp [List.length_append] at hlen
      have hna : ',' ∉ a := rgbExtComp_no_comma a ha
      have hnb : ',' ∉ b := rgbExtComp_no_comma b hb
      have hnc : ',' ∉ c := rgbExtComp_no_comma c hc
      rw [validate_rgb_color_some, if_neg hsne]
      have hpre : List.isPrefixOf "rgb(".data s.data = true :=
        List.isPrefixOf_iff_prefix.mpr ⟨a ++ ',' :: b ++ ',' :: c ++ [')'], by rw [hs]; rfl⟩
      have hsuf : List.isSuffixOf ")".data s.data = true := by
        apply List.isSuffixOf_iff_suffix.mpr
        refine ⟨'r' :: 'g' :: 'b' :: '(' :: (a ++ ',' :: b ++ ',' :: c), ?_⟩
        rw [hs]
        simp [List.append_assoc]
      rw [if_neg (by rw [hpre, hsuf]; decide)]
      have hslice : (s.data.drop 4).dropLast = a ++ ',' :: b ++ ',' :: c := by
        rw [hs]
        have h₁ : (('r' :: 'g' :: 'b' :: '(' :: (a ++ ',' :: b ++ ',' :: c ++ [')'])).drop 4) =
            a ++ ',' :: b ++ ',' :: c ++ [')'] := rfl
        rw [h₁, show a ++ ',' :: b ++ ',' :: c ++ [')'] =
          (a ++ ',' :: b ++ ',' :: c) ++ [')'] by simp [List.append_assoc]]
        exact List.dropLast_concat
      rw [hslice]
      have hsplit : splitChar ',' (a ++ ',' :: b ++ ',' :: c) = [a, b, c] := by
        rw [show a ++ ',' :: b ++ ',' :: c = a ++ ',' :: (b ++ ',' :: c)
          by simp [List.append_assoc]]
        rw [splitChar_append_sep ',' a _ hna]
        rw [splitChar_append_sep ',' b _ hnb]
        rw [splitChar_no_sep ',' c hnc]
      rw [hsplit]
      rw [if_neg (by simp)]
      simp only [List.all_cons, List.all_nil, Bool.and_true, Bool.and_eq_true]
      exact ⟨(rgbCompCheck_iff a).mpr ha,
        ⟨(rgbCompCheck_iff b).mpr hb, (rgbCompCheck_iff c).mpr hc⟩⟩

/-- Characters of a spec-form component are whitespace or digits. -/
theorem rgbSpecComp_chars (p : List Char) (hp : rgbSpecComp p) :
    ∀ c ∈ p, isWsChar c = true ∨ c.isDigit = true := by
  obtain ⟨w₁, core, w₂, rfl, hw₁, hw₂, _, hdig, _⟩ := hp
  intro c hc
  rcases List.mem_append.mp hc with hc₁ | hc₂
  · rcases List.mem_append.mp hc₁ with hc₃ | hc₄
    · exact Or.inl (hw₁ c hc₃)
    · exact Or.inr (hdig c hc₄)
  · exact Or.inl (hw₂ c hc₂)

/-- A spec-form component contains no comma. -/
theorem rgbSpecComp_no_comma (p : List Char) (hp : rgbSpecComp p) : ',' ∉ p := by
  intro hmem
  rcases rgbSpecComp_chars p hp ',' hmem with h | h <;> exact absurd h (by decide)

/-- Splitting three comma-free pieces joined by commas. -/
theorem splitChar_three_parts (a b c : List Char) (hna : ',' ∉ a) (hnb : ',' ∉ b)
    (hnc : ',' ∉ c) : splitChar ',' (a ++ ',' :: b ++ ',' :: c) = [a, b, c] := by
  rw [show a ++ ',' :: b ++ ',' :: c = a ++ ',' :: (b ++ ',' :: c)
    by simp [List.append_assoc]]
  rw [splitChar_append_sep ',' a _ hna]
  rw [splitChar_append_sep ',' b _ hnb]
  rw [splitChar_no_sep ',' c hnc]

/-- C7 counterexample: `validate_rgb_color` accepts `"rgb(2_5,0,0)"`
(Python's `int` parses `"2_5"` as 25), although `"2_5"` is not an integer
component in the sense of the claim, whose "any other shape returns
false" direction therefore fails. -/
theorem c7_counterexample_underscore_component :
    validate_rgb_color (some "rgb(2_5,0,0)") = true ∧
    "rgb(2_5,0,0)" ≠ "" ∧
    ¬rgbSpecForm "rgb(2_5,0,0)" := by
  refine ⟨by decide, by decide, fun hf => ?_⟩
  obtain ⟨a, b, c, hs, ha, hb, hc⟩ := hf
  have hdata : "rgb(2_5,0,0)".data =
      'r' :: 'g' :: 'b' :: '(' :: ((['2', '_', '5', ',', '0', ',', '0'] : List Char) ++ [')']) := by
    decide
  rw [hdata] at hs
  injection hs with _ h₂
  injection h₂ with _ h₃
  injection h₃ with _ h₄
  injection h₄ with _ h₅
  have h₆ : (['2', '_', '5', ',', '0', ',', '0'] : List Char) = a ++ ',' :: b ++ ',' :: c := by
    have h₇ : ((['2', '_', '5', ',', '0', ',', '0'] : List Char) ++ [')']).dropLast =
        ((a ++ ',' :: b ++ ',' :: c) ++ [')']).dropLast := by
      rw [h₅]
    rwa [List.dropLast_concat, List.dropLast_concat] at h₇
  have h₈ : splitChar ',' (['2', '_', '5', ',', '0', ',', '0'] : List Char) = [a, b, c] := by
    rw [h₆]
    exact splitChar_three_parts a b c (rgbSpecComp_no_comma a ha)
      (rgbSpecComp_no_comma b hb) (rgbSpecComp_no_comma c hc)
  have h₉ : splitChar ',' (['2', '_', '5', ',', '0', ',', '0'] : List Char) =
      [['2', '_', '5'], ['0'], ['0']] := by decide
  rw [h₉] at h₈
  injection h₈ with h₁₀ _
  have h₁₁ := rgbSpecComp_chars a ha '_' (by rw [← h₁₀]; decide)
  rcases h₁₁ with h₁₂ | h₁₂ <;> exact absurd h₁₂ (by decide)

/-- Witness for `c7_amended_rgb_characterization`: the accepted string
`"rgb(255, 0, 128)"` has the amended form. -/
theorem c7_amended_witness :
    "rgb(255, 0, 128)" = "" ∨ rgbExtForm "rgb(255, 0, 128)" :=
  (c7_amended_rgb_characterization.2 "rgb(255, 0, 128)").mp (by decide)
